import Mathlib

/-!
Erigon state-commitment subsystem: diff sets and commitment rebuild.

A shallow embedding of

* `erigon-lib/state`: `DomainEntryDiff`, `SerializeDiffSet`, `DeserializeDiffSet`,
  `MergeDiffSets` (only their tests are part of the sources at hand, so these three
  functions are modelled from the specification), and
* `eth/stagedsync/stage_trie3.go`: `blockBorders`, `countBlockByTxnum`,
  `collectAndComputeCommitment`, `RebuildPatriciaTrieBasedOnFiles`.

Go byte slices are lists of `UInt8`; `uint64` values are natural numbers reduced
modulo `2^64` wherever the Go code can wrap.
-/

namespace Erigon

/-- A Go `[]byte`. -/
abbrev Bytes := List UInt8

/-! ## Part 1: diff sets (`erigon-lib/state`) -/

namespace state

/-- One recorded mutation of a single key (`state.DomainEntryDiff`), with the four
fields the test file constructs. -/
structure DomainEntryDiff where
  Key : Bytes
  Value : Bytes
  PrevStepBytes : Bytes
  TxNum : Bytes
deriving DecidableEq, Repr

/-- Modelled from the spec: the length prefix of the diff binary layout
("[varint-or-fixed length]"), taken as the unsigned base-128 varint: seven payload
bits per byte, least significant group first, high bit set on every byte but the
last. The first argument bounds the number of groups. -/
def putUvarintAux : Nat → Nat → Bytes
  | 0, x => [UInt8.ofNat x]
  | fuel + 1, x =>
    if x < 128 then [UInt8.ofNat x]
    else UInt8.ofNat (x % 128 + 128) :: putUvarintAux fuel (x / 128)

/-- Modelled from the spec: the varint length prefix of a field of length `x`. -/
def putUvarint (x : Nat) : Bytes := putUvarintAux x x

/-- Modelled from the spec: reading a varint length prefix; `none` on truncated
input ("malformed length prefixes or truncated input constitute a decoding
failure"). -/
def uvarint : Bytes → Option (Nat × Bytes)
  | [] => none
  | b :: rest =>
    if b.toNat < 128 then some (b.toNat, rest)
    else
      match uvarint rest with
      | none => none
      | some (v, rest') => some (b.toNat - 128 + 128 * v, rest')

/-- Modelled from the spec: reading exactly `n` bytes; `none` on truncated input. -/
def readBytes (n : Nat) (bs : Bytes) : Option (Bytes × Bytes) :=
  if bs.length < n then none else some (bs.take n, bs.drop n)

/-- Modelled from the spec: the encoding of one record of the diff binary layout
(`SerializeDiffSet` itself is not among the sources): "[length][key bytes],
[length][value bytes], [8-byte big-endian prevStep], [length][txNum bytes]". -/
def serializeEntry (e : DomainEntryDiff) : Bytes :=
  putUvarint e.Key.length ++ e.Key ++
  (putUvarint e.Value.length ++ e.Value ++
  (e.PrevStepBytes ++
  (putUvarint e.TxNum.length ++ e.TxNum)))

/-- Modelled from the spec: `SerializeDiffSet(diffSet, out)`, which is not among the
sources: "appends a length-prefixed encoding of each diff's four fields (key,
value, prevStepBytes, txNum) in sequence order into a growable buffer, returning
the final byte sequence". -/
def SerializeDiffSet (diffSet : List DomainEntryDiff) (out : Bytes) : Bytes :=
  diffSet.foldl (fun buf e => buf ++ serializeEntry e) out

/-- Modelled from the spec: decoding of one record, the inverse of `serializeEntry`:
"read length-prefixed key, value, and fixed-width prevStepBytes/txNum fields". The
previous step is the fixed-width field (8 bytes), the transaction number carries
its length as in the binary layout of the external interfaces. -/
def deserializeEntry (bs : Bytes) : Option (DomainEntryDiff × Bytes) :=
  match uvarint bs with
  | none => none
  | some (klen, bs1) =>
    match readBytes klen bs1 with
    | none => none
    | some (key, bs2) =>
      match uvarint bs2 with
      | none => none
      | some (vlen, bs3) =>
        match readBytes vlen bs3 with
        | none => none
        | some (value, bs4) =>
          match readBytes 8 bs4 with
          | none => none
          | some (prevStep, bs5) =>
            match uvarint bs5 with
            | none => none
            | some (tlen, bs6) =>
              match readBytes tlen bs6 with
              | none => none
              | some (txNum, bs7) =>
                some ({ Key := key, Value := value, PrevStepBytes := prevStep,
                        TxNum := txNum }, bs7)

/-- Modelled from the spec: the record loop of `DeserializeDiffSet`: decode records
until the input is exhausted, appending them in file order. The first argument
bounds the number of records. -/
def DeserializeDiffSetAux : Nat → Bytes → Option (List DomainEntryDiff)
  | _, [] => some []
  | 0, _ :: _ => none
  | fuel + 1, b :: bs =>
    match deserializeEntry (b :: bs) with
    | none => none
    | some (e, rest) =>
      match DeserializeDiffSetAux fuel rest with
      | none => none
      | some es => some (e :: es)

/-- Modelled from the spec: `DeserializeDiffSet(bytes)`, which is not among the
sources: "the exact inverse" of `SerializeDiffSet`; `none` is the decoding failure.
Every record takes at least one byte, so the input length bounds the record count. -/
def DeserializeDiffSet (bs : Bytes) : Option (List DomainEntryDiff) :=
  DeserializeDiffSetAux bs.length bs

/-- Keys of a diff set, in order. -/
def keys (d : List DomainEntryDiff) : List Bytes := d.map (·.Key)

/-- Modelled from the spec: the entry the merge emits at the position of the entry
`a` of the first set: "if second contains an entry for that key, the merged sequence
uses second's entry at that position; otherwise first's own entry is kept". -/
def mergeEntry (second : List DomainEntryDiff) (a : DomainEntryDiff) : DomainEntryDiff :=
  match second.find? (fun b => b.Key == a.Key) with
  | some b => b
  | none => a

/-- Modelled from the spec: `MergeDiffSets(first, second)`, which is not among the
sources: "Walk first's entries in order; for each key, if second contains an entry
for that key, the merged sequence uses second's entry at that position; otherwise
first's own entry is kept at that position. After emitting one entry per key that
appeared in first, append, in their original relative order, every entry from
second whose key did not appear in first." Lookups use the first occurrence. -/
def MergeDiffSets (first second : List DomainEntryDiff) : List DomainEntryDiff :=
  first.map (mergeEntry second)
  ++ second.filter (fun b => !(first.any (fun a => a.Key == b.Key)))

/-- The bytes of an ASCII string literal, Go `[]byte("...")`. -/
def ofString (s : String) : Bytes := s.toList.map (fun c => UInt8.ofNat c.toNat)

/-- The 8-byte array `[8]byte{b}`: first byte `b`, the rest zero. -/
def step8 (b : UInt8) : Bytes := b :: List.replicate 7 0

/-- The diff set built in `TestSerializeDeserializeDiff` (the last two records share
their key). -/
def testDiffSet : List DomainEntryDiff :=
  [ { Key := ofString "key188888888", Value := ofString "value1",
      PrevStepBytes := step8 1, TxNum := step8 4 },
    { Key := ofString "key288888888", Value := ofString "value2",
      PrevStepBytes := step8 2, TxNum := step8 5 },
    { Key := ofString "key388888888", Value := ofString "value3",
      PrevStepBytes := step8 3, TxNum := step8 6 },
    { Key := ofString "key388888888", Value := ofString "value3",
      PrevStepBytes := step8 1, TxNum := step8 4 } ]

/-- The first diff set `d1` of `TestMergeDiffSet`. -/
def testMergeFirst : List DomainEntryDiff :=
  [ { Key := ofString "key188888888", Value := ofString "value1",
      PrevStepBytes := step8 1, TxNum := [] },
    { Key := ofString "key288888888", Value := ofString "value2",
      PrevStepBytes := step8 2, TxNum := [] },
    { Key := ofString "key388888888", Value := ofString "value3",
      PrevStepBytes := step8 3, TxNum := [] } ]

/-- The second diff set `d2` of `TestMergeDiffSet`. -/
def testMergeSecond : List DomainEntryDiff :=
  [ { Key := ofString "key188888888", Value := ofString "value5",
      PrevStepBytes := step8 5, TxNum := [] },
    { Key := ofString "key388888888", Value := ofString "value6",
      PrevStepBytes := step8 6, TxNum := [] },
    { Key := ofString "key488888888", Value := ofString "value4",
      PrevStepBytes := step8 4, TxNum := [] } ]

end state

/-! ## Part 2: commitment rebuild (`eth/stagedsync/stage_trie3.go`) -/

namespace stagedsync

/-- Reduction of a natural number to a Go `uint64`. -/
def u64 (n : Nat) : Nat := n % 2 ^ 64

/-- Go `a - b` on `uint64` operands (wraps around below zero). -/
def u64sub (a b : Nat) : Nat := (u64 a + 2 ^ 64 - u64 b) % 2 ^ 64

/-- The constant `math.MaxUint64`. -/
def MaxUint64 : Nat := 2 ^ 64 - 1

/-- A `libcommon.Hash`, the Go array type `[32]byte`. -/
def Hash := { b : Bytes // b.length = 32 }

instance : DecidableEq Hash := inferInstanceAs (DecidableEq { b : Bytes // b.length = 32 })

/-- The slice `h[:]` of a hash. -/
def Hash.bytes (h : Hash) : Bytes := h.val

/-- The zero value `libcommon.Hash{}`. -/
def Hash.zero : Hash := ⟨List.replicate 32 0, by simp⟩

/-- Modelled from the spec: `libcommon.BytesToHash`, which is not among the sources;
the root is "a fixed-size binary digest": the bytes are right-aligned in the 32-byte
array, a longer input is cropped from the left, a shorter one is padded with
zeros. -/
def BytesToHash (b : Bytes) : Hash :=
  ⟨List.replicate (32 - b.length) 0 ++ b.drop (b.length - 32), by
    simp only [List.length_append, List.length_replicate, List.length_drop]; omega⟩

/-- Errors returned by the functions of `stage_trie3.go`. Errors of collaborators
(storage, block reader, commitment context) are opaque codes; every `fmt.Errorf`
of the file has its own constructor; the two formats with `%w` keep their cause. -/
inductive Err
  /-- An error value returned by a collaborator. -/
  | external (code : Nat)
  /-- The package variable `ErrInvalidStateRootHash` ("invalid state root hash"). -/
  | invalidStateRootHash
  /-- `fmt.Errorf("block not found for txnum %d", toTxNum-1)`. -/
  | blockNotFoundForTxnum (txnum : Nat)
  /-- `fmt.Errorf("block with txn %x not found", txnum)`. -/
  | blockWithTxnNotFound (txnum : Nat)
  /-- `fmt.Errorf("failed to find first txNum in block %d : %w", blockNum, err)`. -/
  | failedFirstTxNum (blockNum : Nat) (cause : Err)
  /-- `fmt.Errorf("failed to find last txNum in block %d : %w", blockNum, err)`. -/
  | failedLastTxNum (blockNum : Nat) (cause : Err)
  /-- `fmt.Errorf("no header found with number %d", blockNum)`. -/
  | noHeaderFound (blockNum : Nat)
  /-- `fmt.Errorf("wrong trie root")`. -/
  | wrongTrieRoot
  /-- A run-time panic (nil dereference, integer division by zero). -/
  | runtimePanic
deriving DecidableEq, Repr

/-- The sentinel `var ErrInvalidStateRootHash = fmt.Errorf("invalid state root hash")`. -/
def ErrInvalidStateRootHash : Err := Err.invalidStateRootHash

/-- Go `errors.Is(e, target)`: `e` is `target` or wraps it through `%w`. -/
def errorsIs : Err → Err → Bool
  | Err.failedFirstTxNum n cause, target =>
    decide (Err.failedFirstTxNum n cause = target) || errorsIs cause target
  | Err.failedLastTxNum n cause, target =>
    decide (Err.failedLastTxNum n cause = target) || errorsIs cause target
  | e, target => decide (e = target)

/-- The fields of `types.Header` that the file reads: the state root and the value
of the method `Hash()`. -/
structure Header where
  Root : Hash
  HashValue : Hash

/-- A block body: the file only takes `len(b.Transactions)`. -/
structure Body where
  Transactions : List Nat

/-- The two methods of `services.FullBlockReader` the file calls. A result is an
error of the collaborator, a nil pointer (`none`) or a value. -/
structure FullBlockReader where
  HeaderByNumber : Nat → Except Nat (Option Header)
  BodyWithTransactions : Hash → Nat → Except Nat (Option Body)

/-- The read-write transaction `kv.RwTx` together with what the collaborators answer
when called through it. `FindBlockNum k n` is the answer of the `k`-th consultation
(counted from 0) of `rawdbv3.TxNums.FindBlockNum(tx, n)` in a run;
`ComputeCommitment t b` is the answer of `sdCtx.ComputeCommitment` on the domain view
whose coordinates were set to transaction number `t` and block number `b`;
`CommitmentInMem step txFrom txTo` and `Commit` give the returned error, if any. -/
structure RwTx where
  EndTxNumNoCommitment : Nat
  FindBlockNum : Nat → Nat → Except Nat (Bool × Nat)
  Min : Nat → Except Nat Nat
  Max : Nat → Except Nat Nat
  NewSharedDomains : Option Nat
  ComputeCommitment : Nat → Nat → Except Nat Bytes
  CommitmentInMem : Nat → Nat → Nat → Option Nat
  Commit : Option Nat

/-- The database handle `kv.RwDB`: `BeginRw` fails or opens a transaction. -/
structure RwDB where
  BeginRw : Except Nat RwTx

/-- The aggregator `*state.Aggregator`: the file reads its step size. -/
structure Aggregator where
  StepSize : Nat

/-- The configuration `TrieCfg` (the header-download handle `hd` is never read and is
left out). -/
structure TrieCfg where
  db : RwDB
  checkRoot : Bool
  badBlockHalt : Bool
  tmpDir : String
  saveNewHashesToDB : Bool
  blockReader : FullBlockReader
  historyV3 : Bool
  agg : Aggregator

/-- The constructor `StageTrieCfg`. -/
def StageTrieCfg (db : RwDB) (checkRoot saveNewHashesToDB badBlockHalt : Bool)
    (tmpDir : String) (blockReader : FullBlockReader) (historyV3 : Bool)
    (agg : Aggregator) : TrieCfg :=
  { db := db, checkRoot := checkRoot, tmpDir := tmpDir,
    saveNewHashesToDB := saveNewHashesToDB, badBlockHalt := badBlockHalt,
    blockReader := blockReader, historyV3 := historyV3, agg := agg }

/-- The calls with an effect outside the function, in the order they are made. -/
inductive Event
  /-- `cfg.db.BeginRw`. -/
  | BeginRw
  /-- `rwTx.Rollback()`. -/
  | Rollback
  /-- `rwTx.Commit()`. -/
  | Commit
  /-- `rawdbv3.TxNums.FindBlockNum(tx, txNum)`. -/
  | FindBlockNum (txNum : Nat)
  /-- The fallback scan `countBlockByTxnum(ctx, rwTx, cfg.blockReader, txnum)`. -/
  | countBlockByTxnum (txnum : Nat)
  /-- `rawdbv3.TxNums.Min(rwTx, blockNum)`. -/
  | TxNumsMin (blockNum : Nat)
  /-- `rawdbv3.TxNums.Max(rwTx, blockNum)`. -/
  | TxNumsMax (blockNum : Nat)
  /-- The header fetch for the root comparison,
  `cfg.blockReader.HeaderByNumber(ctx, rwTx, blockNum)` in the rebuild. -/
  | HeaderByNumber (blockNum : Nat)
  /-- `state.NewSharedDomains(tx, ...)`. -/
  | NewSharedDomains
  /-- The deferred `domains.Close()`. -/
  | DomainsClose
  /-- `domains.SetTxNum(txNum)`. -/
  | SetTxNum (txNum : Nat)
  /-- `domains.SetBlockNum(blockNum)`. -/
  | SetBlockNum (blockNum : Nat)
  /-- `sdCtx.ComputeCommitment(ctx, true, blockNum, "Finalizing")`. -/
  | ComputeCommitment (blockNum : Nat)
  /-- `domains.CommitmentInMem(agg, step, txFrom, txTo, logger)`. -/
  | CommitmentInMem (step txFrom txTo : Nat)
  /-- The evaluation of `bytes.Equal(rh, expectedRootHash[:])`. -/
  | CompareRoot
deriving DecidableEq, Repr

/-- What a call returns, `(val, err)` as in Go, and the calls it made. -/
structure Ret (α : Type) where
  val : α
  err : Option Err
  events : List Event
deriving DecidableEq

deriving instance DecidableEq for Except

/-- The record `blockBorders`. -/
structure blockBorders where
  Number : Nat
  FirstTx : Nat
  CurrentTx : Nat
  LastTx : Nat
deriving DecidableEq, Repr

/-- The method `func (b blockBorders) Offset() uint64`. -/
def blockBorders.Offset (b : blockBorders) : Nat :=
  if b.CurrentTx > b.FirstTx ∧ b.CurrentTx < b.LastTx then
    u64sub b.CurrentTx b.FirstTx
  else 0

/-- The loop of `countBlockByTxnum` from block `i` on with counter `txCounter`; the
first argument is the number of iterations left before `i` reaches
`math.MaxUint64`, where the function returns its not-found error. A nil header or
body makes `h.Hash()` or `b.Transactions` panic. -/
def countBlockByTxnumLoop (blockReader : FullBlockReader) (txnum : Nat) :
    Nat → Nat → Nat → Except Err blockBorders
  | 0, _, _ => Except.error (Err.blockWithTxnNotFound txnum)
  | fuel + 1, i, txCounter =>
    match blockReader.HeaderByNumber i with
    | Except.error e => Except.error (Err.external e)
    | Except.ok none => Except.error Err.runtimePanic
    | Except.ok (some h) =>
      let firstTx := txCounter
      let txCounter1 := u64 (txCounter + 1)
      match blockReader.BodyWithTransactions h.HashValue i with
      | Except.error e => Except.error (Err.external e)
      | Except.ok none => Except.error Err.runtimePanic
      | Except.ok (some b) =>
        let txCounter2 := u64 (txCounter1 + b.Transactions.length)
        let txCounter3 := u64 (txCounter2 + 1)
        if txCounter3 ≥ txnum then
          Except.ok { Number := i, FirstTx := firstTx, CurrentTx := txnum,
                      LastTx := txCounter3 }
        else countBlockByTxnumLoop blockReader txnum fuel (i + 1) txCounter3

/-- The function `countBlockByTxnum`: the scan `for i := uint64(0); i < math.MaxUint64;
i++` starting with `txCounter = 0`. -/
def countBlockByTxnum (blockReader : FullBlockReader) (txnum : Nat) :
    Except Err blockBorders :=
  countBlockByTxnumLoop blockReader txnum MaxUint64 0 0

/-- The function `collectAndComputeCommitment(ctx, db, tx, agg, tmpDir, toTxNum)`.
The deferred `domains.Close()` runs on every path after `NewSharedDomains`
succeeded. The function ends with `return nil, nil`. -/
def collectAndComputeCommitment (tx : RwTx) (agg : Aggregator) (toTxNum : Nat) :
    Ret Bytes :=
  match tx.NewSharedDomains with
  | some e => ⟨[], some (Err.external e), [Event.NewSharedDomains]⟩
  | none =>
    match tx.FindBlockNum 1 toTxNum with
    | Except.error e =>
      ⟨[], some (Err.external e),
        [Event.NewSharedDomains, Event.FindBlockNum toTxNum, Event.DomainsClose]⟩
    | Except.ok (false, _) =>
      ⟨[], some (Err.blockNotFoundForTxnum (u64sub toTxNum 1)),
        [Event.NewSharedDomains, Event.FindBlockNum toTxNum, Event.DomainsClose]⟩
    | Except.ok (true, blockNum) =>
      let pre := [Event.NewSharedDomains, Event.FindBlockNum toTxNum,
        Event.SetTxNum (u64sub toTxNum 1), Event.SetBlockNum blockNum]
      if agg.StepSize = 0 then
        ⟨[], some Err.runtimePanic, pre ++ [Event.DomainsClose]⟩
      else
        let step := u64sub toTxNum 1 / agg.StepSize
        match tx.ComputeCommitment (u64sub toTxNum 1) blockNum with
        | Except.error e =>
          ⟨[], some (Err.external e),
            pre ++ [Event.ComputeCommitment blockNum, Event.DomainsClose]⟩
        | Except.ok _rh =>
          match tx.CommitmentInMem step (u64sub toTxNum agg.StepSize) toTxNum with
          | some e =>
            ⟨[], some (Err.external e),
              pre ++ [Event.ComputeCommitment blockNum,
                Event.CommitmentInMem step (u64sub toTxNum agg.StepSize) toTxNum,
                Event.DomainsClose]⟩
          | none =>
            ⟨[], none,
              pre ++ [Event.ComputeCommitment blockNum,
                Event.CommitmentInMem step (u64sub toTxNum agg.StepSize) toTxNum,
                Event.DomainsClose]⟩

/-- Lines 331 to 356 of `RebuildPatriciaTrieBasedOnFiles`: the block number of
`toTxNum` and the flag `foundHash`, or the error the function returns there. -/
def locateBlock (rwTx : RwTx) (cfg : TrieCfg) (toTxNum : Nat) :
    Except Err (Nat × Bool) × List Event :=
  match rwTx.FindBlockNum 0 toTxNum with
  | Except.error e => (Except.error (Err.external e), [Event.FindBlockNum toTxNum])
  | Except.ok (false, _) =>
    match countBlockByTxnum cfg.blockReader toTxNum with
    | Except.error e =>
      (Except.error e, [Event.FindBlockNum toTxNum, Event.countBlockByTxnum toTxNum])
    | Except.ok bb =>
      (Except.ok (bb.Number, bb.Offset != 0),
        [Event.FindBlockNum toTxNum, Event.countBlockByTxnum toTxNum])
  | Except.ok (true, blockNum) =>
    match rwTx.Min blockNum with
    | Except.error e =>
      (Except.error (Err.failedFirstTxNum blockNum (Err.external e)),
        [Event.FindBlockNum toTxNum, Event.TxNumsMin blockNum])
    | Except.ok firstTxInBlock =>
      match rwTx.Max blockNum with
      | Except.error e =>
        (Except.error (Err.failedLastTxNum blockNum (Err.external e)),
          [Event.FindBlockNum toTxNum, Event.TxNumsMin blockNum,
            Event.TxNumsMax blockNum])
      | Except.ok lastTxInBlock =>
        (Except.ok (blockNum,
            decide (firstTxInBlock = toTxNum) || decide (lastTxInBlock = toTxNum)),
          [Event.FindBlockNum toTxNum, Event.TxNumsMin blockNum,
            Event.TxNumsMax blockNum])

/-- Lines 358 to 371 of `RebuildPatriciaTrieBasedOnFiles`: the expected root taken
from the header when `foundHash && cfg.checkRoot`, else the zero hash. -/
def fetchExpectedRoot (emptyRoot : Hash) (cfg : TrieCfg) (blockNum : Nat)
    (foundHash : Bool) : Ret Hash :=
  if foundHash && cfg.checkRoot then
    match cfg.blockReader.HeaderByNumber blockNum with
    | Except.error e =>
      ⟨emptyRoot, some (Err.external e), [Event.HeaderByNumber blockNum]⟩
    | Except.ok none =>
      ⟨emptyRoot, some (Err.noHeaderFound blockNum), [Event.HeaderByNumber blockNum]⟩
    | Except.ok (some syncHeadHeader) =>
      ⟨syncHeadHeader.Root, none, [Event.HeaderByNumber blockNum]⟩
  else ⟨Hash.zero, none, []⟩

/-- Lines 373 to 391 of `RebuildPatriciaTrieBasedOnFiles`: the commitment, the
comparison with the expected root, and the commit of an own transaction. -/
def computeAndVerify (emptyRoot : Hash) (rwTx : RwTx) (cfg : TrieCfg)
    (useExternalTx : Bool) (toTxNum : Nat) (foundHash : Bool)
    (expectedRootHash : Hash) : Ret Hash :=
  let c := collectAndComputeCommitment rwTx cfg.agg toTxNum
  match c.err with
  | some e => ⟨emptyRoot, some e, c.events⟩
  | none =>
    let rh := c.val
    if foundHash && cfg.checkRoot then
      if rh ≠ expectedRootHash.bytes then
        ⟨emptyRoot, some Err.wrongTrieRoot,
          c.events ++ [Event.CompareRoot, Event.Rollback]⟩
      else if useExternalTx then
        ⟨BytesToHash rh, none, c.events ++ [Event.CompareRoot]⟩
      else
        match rwTx.Commit with
        | some e =>
          ⟨emptyRoot, some (Err.external e),
            c.events ++ [Event.CompareRoot, Event.Commit]⟩
        | none => ⟨BytesToHash rh, none, c.events ++ [Event.CompareRoot, Event.Commit]⟩
    else if useExternalTx then
      ⟨BytesToHash rh, none, c.events⟩
    else
      match rwTx.Commit with
      | some e => ⟨emptyRoot, some (Err.external e), c.events ++ [Event.Commit]⟩
      | none => ⟨BytesToHash rh, none, c.events ++ [Event.Commit]⟩

/-- Lines 331 to 391 of `RebuildPatriciaTrieBasedOnFiles`, run on the transaction
`rwTx`, which is the caller's (`useExternalTx`) or the function's own. -/
def rebuildOn (emptyRoot : Hash) (rwTx : RwTx) (cfg : TrieCfg) (useExternalTx : Bool) :
    Ret Hash :=
  let toTxNum := rwTx.EndTxNumNoCommitment
  match locateBlock rwTx cfg toTxNum with
  | (Except.error e, evs) => ⟨Hash.zero, some e, evs⟩
  | (Except.ok (blockNum, foundHash), evs) =>
    let x := fetchExpectedRoot emptyRoot cfg blockNum foundHash
    match x.err with
    | some e => ⟨x.val, some e, evs ++ x.events⟩
    | none =>
      let r := computeAndVerify emptyRoot rwTx cfg useExternalTx toTxNum foundHash x.val
      ⟨r.val, r.err, evs ++ x.events ++ r.events⟩

/-- The function `RebuildPatriciaTrieBasedOnFiles(rwTx, cfg, ctx, logger)`; `emptyRoot`
is the constant `trie.EmptyRoot`, declared outside the file. A nil `rwTx` makes
the function open its own transaction and defer its `Rollback`. -/
def RebuildPatriciaTrieBasedOnFiles (emptyRoot : Hash) (rwTx : Option RwTx)
    (cfg : TrieCfg) : Ret Hash :=
  match rwTx with
  | some tx => rebuildOn emptyRoot tx cfg true
  | none =>
    match cfg.db.BeginRw with
    | Except.error e => ⟨emptyRoot, some (Err.external e), [Event.BeginRw]⟩
    | Except.ok tx =>
      let r := rebuildOn emptyRoot tx cfg false
      ⟨r.val, r.err, [Event.BeginRw] ++ r.events ++ [Event.Rollback]⟩

/-- The counter of `countBlockByTxnum` before block `i`, on a chain whose block `j`
holds `n j` transactions, when every block takes `slots + n j` transaction
numbers. -/
def counterBefore (slots : Nat) (n : Nat → Nat) : Nat → Nat
  | 0 => 0
  | i + 1 => counterBefore slots n i + (slots + n i)

/-- The 32-byte hash whose bytes all equal `b`. -/
def hashOf (b : UInt8) : Hash := ⟨List.replicate 32 b, by simp⟩

/-- A block reader over a chain given by its per-block transaction counts: every
header and body read succeeds, block `j` holds `n j` transactions and every header
declares the state root `root`. -/
def chainReader (n : Nat → Nat) (root : Hash) : FullBlockReader :=
  { HeaderByNumber := fun _ => Except.ok (some { Root := root, HashValue := hashOf 7 })
    BodyWithTransactions := fun _ i => Except.ok (some { Transactions := List.replicate (n i) 0 }) }

/-- A transaction on which every storage operation succeeds: the watermark is
`toTxNum`, the `k`-th index lookup reports `(indexed k, blockNum)`, the block spans
`first` to `last`, and the commitment computation produces `digest`. -/
def okTx (toTxNum : Nat) (indexed : Nat → Bool) (blockNum first last : Nat)
    (digest : Bytes) : RwTx :=
  { EndTxNumNoCommitment := toTxNum
    FindBlockNum := fun k _ => Except.ok (indexed k, blockNum)
    Min := fun _ => Except.ok first
    Max := fun _ => Except.ok last
    NewSharedDomains := none
    ComputeCommitment := fun _ _ => Except.ok digest
    CommitmentInMem := fun _ _ _ => none
    Commit := none }

/-- A configuration over the chain of empty blocks whose headers declare `root`,
with step size 4; `BeginRw` opens `tx`. -/
def okCfg (tx : RwTx) (checkRoot : Bool) (root : Hash) : TrieCfg :=
  StageTrieCfg { BeginRw := Except.ok tx } checkRoot true false "" (chainReader (fun _ => 0) root)
    true { StepSize := 4 }

/-- A transaction whose watermark 10 is the first transaction number of the indexed
block 3 (borders 10 and 15). -/
def borderTx (digest : Bytes) : RwTx := okTx 10 (fun _ => true) 3 10 15 digest

/-- A transaction whose watermark 12 lies strictly inside the indexed block 3
(borders 10 and 15). -/
def interiorTx (digest : Bytes) : RwTx := okTx 12 (fun _ => true) 3 10 15 digest

/-- A transaction with watermark `toTxNum` whose index has no entry on the first
lookup, so that the fallback scan runs. -/
def unindexedTx (toTxNum : Nat) : RwTx := okTx toTxNum (fun k => decide (0 < k)) 0 0 0 []

/-- A configuration like `okCfg` whose block reader fails every header read with the
collaborator's error 21. -/
def failingHeaderCfg (tx : RwTx) : TrieCfg :=
  StageTrieCfg { BeginRw := Except.ok tx } true true false ""
    { HeaderByNumber := fun _ => Except.error 21
      BodyWithTransactions := fun _ _ => Except.ok (some { Transactions := [] }) }
    true { StepSize := 4 }

/-- A transaction with watermark `toTxNum` whose index has no entry on any lookup and
on which `state.NewSharedDomains` fails with the collaborator's error 22. -/
def noDomainsTx (toTxNum : Nat) : RwTx :=
  { okTx toTxNum (fun _ => false) 0 0 0 [] with NewSharedDomains := some 22 }

/-- The block reader `r` with the state root declared by the header of block `i`
replaced by `g i`; nothing else changes. -/
def reRoot (g : Nat → Hash) (r : FullBlockReader) : FullBlockReader :=
  { HeaderByNumber := fun i =>
      match r.HeaderByNumber i with
      | Except.error e => Except.error e
      | Except.ok none => Except.ok none
      | Except.ok (some h) => Except.ok (some { h with Root := g i })
    BodyWithTransactions := r.BodyWithTransactions }

/-- The configuration `cfg` over the block reader whose headers declare the roots
`g`. -/
def withHeaderRoots (g : Nat → Hash) (cfg : TrieCfg) : TrieCfg :=
  { cfg with blockReader := reRoot g cfg.blockReader }

/-- The configuration `cfg` with the flag `saveNewHashesToDB` set to `save`. -/
def withSaveNewHashesToDB (save : Bool) (cfg : TrieCfg) : TrieCfg :=
  { cfg with saveNewHashesToDB := save }

end stagedsync

/-! ## Part 3: Heimdall unwind configuration (`polygon/bor/bordb/prune.go`) -/

namespace bordb

/-- The record `HeimdallUnwindCfg`; the Go zero value has every flag false. -/
structure HeimdallUnwindCfg where
  KeepEvents : Bool
  KeepEventNums : Bool
  KeepEventProcessedBlocks : Bool
  KeepSpans : Bool
  KeepSpanBlockProducerSelections : Bool
  KeepCheckpoints : Bool
  KeepMilestones : Bool
deriving DecidableEq, Repr

/-- The zero value `HeimdallUnwindCfg{}`. -/
def HeimdallUnwindCfg.zero : HeimdallUnwindCfg :=
  { KeepEvents := false, KeepEventNums := false, KeepEventProcessedBlocks := false,
    KeepSpans := false, KeepSpanBlockProducerSelections := false,
    KeepCheckpoints := false, KeepMilestones := false }

/-- The first loop of `ApplyUserUnwindTypeOverrides`: every override must be a key of
the map `unwindTypes` (else the function panics with the message in the error) and
is deleted from it. The map is the list of its keys. -/
def deleteOverrides : List String → List String → Except String (List String)
  | unwindTypes, [] => Except.ok unwindTypes
  | unwindTypes, unwindType :: others =>
    if unwindTypes.contains unwindType then
      deleteOverrides (unwindTypes.filter (fun t => t != unwindType)) others
    else Except.error ("unknown unwindType override " ++ unwindType)

/-- The second loop of `ApplyUserUnwindTypeOverrides`: for every key left in
`unwindTypes` the `switch` sets the flags of that type in the local `defaultCfg`,
and panics on a key without a case. -/
def flipUnseen : List String → HeimdallUnwindCfg → Except String HeimdallUnwindCfg
  | [], defaultCfg => Except.ok defaultCfg
  | unwindType :: others, defaultCfg =>
    if unwindType = "events" then
      flipUnseen others { defaultCfg with KeepEvents := true, KeepEventNums := true,
                                          KeepEventProcessedBlocks := true }
    else if unwindType = "spans" then
      flipUnseen others { defaultCfg with KeepSpans := true,
                                          KeepSpanBlockProducerSelections := true }
    else if unwindType = "checkpoints" then
      flipUnseen others { defaultCfg with KeepCheckpoints := true }
    else if unwindType = "milestones" then
      flipUnseen others { defaultCfg with KeepMilestones := true }
    else
      Except.error ("missing override logic for unwindType " ++ unwindType ++
        ", please add it")

/-- The method `func (cfg *HeimdallUnwindCfg) ApplyUserUnwindTypeOverrides(
userUnwindTypeOverrides []string)`: the value of the receiver after the call, or the
message of the panic. The function returns at once when
`len(userUnwindTypeOverrides) > 0`; otherwise it fills the local variable
`defaultCfg`, which it never stores into the receiver. -/
def ApplyUserUnwindTypeOverrides (cfg : HeimdallUnwindCfg)
    (userUnwindTypeOverrides : List String) : Except String HeimdallUnwindCfg :=
  if userUnwindTypeOverrides.length > 0 then Except.ok cfg
  else
    match deleteOverrides ["events", "spans", "checkpoints", "milestones"]
        userUnwindTypeOverrides with
    | Except.error msg => Except.error msg
    | Except.ok unwindTypes =>
      match flipUnseen unwindTypes HeimdallUnwindCfg.zero with
      | Except.error msg => Except.error msg
      | Except.ok _defaultCfg => Except.ok cfg

/-- The receiver the comment of `ApplyUserUnwindTypeOverrides` describes: the tables
of the types that are not among the overrides are kept. -/
def keepUnlisted (overrides : List String) : HeimdallUnwindCfg :=
  { KeepEvents := !overrides.contains "events",
    KeepEventNums := !overrides.contains "events",
    KeepEventProcessedBlocks := !overrides.contains "events",
    KeepSpans := !overrides.contains "spans",
    KeepSpanBlockProducerSelections := !overrides.contains "spans",
    KeepCheckpoints := !overrides.contains "checkpoints",
    KeepMilestones := !overrides.contains "milestones" }

end bordb

/-! ### Round trip of the codec -/

namespace state

theorem toNat_ofNat_byte (n : Nat) : (UInt8.ofNat n).toNat = n % 256 := rfl

theorem uvarint_putUvarintAux (fuel x : Nat) (h : x ≤ fuel) (rest : Bytes) :
    uvarint (putUvarintAux fuel x ++ rest) = some (x, rest) := by
  induction fuel generalizing x with
  | zero =>
    have hx : x = 0 := by omega
    subst hx
    simp [putUvarintAux, uvarint]
  | succ f ih =>
    unfold putUvarintAux
    by_cases hlt : x < 128
    · have h1 : (UInt8.ofNat x).toNat = x := by
        rw [toNat_ofNat_byte]; omega
      simp [hlt, uvarint, h1]
    · have h1 : (UInt8.ofNat (x % 128 + 128)).toNat = x % 128 + 128 := by
        rw [toNat_ofNat_byte]; omega
      have h2 : x / 128 ≤ f := by omega
      simp only [hlt, if_false, List.cons_append, uvarint, h1, ih (x / 128) h2]
      have h3 : ¬ (x % 128 + 128 < 128) := by omega
      simp only [h3, if_false]
      congr 2
      omega

theorem uvarint_putUvarint (x : Nat) (rest : Bytes) :
    uvarint (putUvarint x ++ rest) = some (x, rest) :=
  uvarint_putUvarintAux x x (le_refl x) rest

theorem readBytes_append (xs rest : Bytes) :
    readBytes xs.length (xs ++ rest) = some (xs, rest) := by
  simp [readBytes]

theorem readBytes_append_of_length (n : Nat) (xs rest : Bytes) (h : xs.length = n) :
    readBytes n (xs ++ rest) = some (xs, rest) := by
  subst h; exact readBytes_append xs rest

theorem deserializeEntry_serializeEntry (e : DomainEntryDiff) (rest : Bytes)
    (h : e.PrevStepBytes.length = 8) :
    deserializeEntry (serializeEntry e ++ rest) = some (e, rest) := by
  unfold deserializeEntry serializeEntry
  simp only [List.append_assoc, uvarint_putUvarint, readBytes_append,
    readBytes_append_of_length 8 e.PrevStepBytes _ h]

theorem serializeEntry_ne_nil (e : DomainEntryDiff) : serializeEntry e ≠ [] := by
  unfold serializeEntry putUvarint
  cases h : e.Key.length with
  | zero => simp [putUvarintAux]
  | succ n =>
    unfold putUvarintAux
    split <;> simp

theorem SerializeDiffSet_out (d : List DomainEntryDiff) (out : Bytes) :
    SerializeDiffSet d out = out ++ SerializeDiffSet d [] := by
  induction d generalizing out with
  | nil => simp [SerializeDiffSet]
  | cons e d ih =>
    have h1 : SerializeDiffSet (e :: d) out = SerializeDiffSet d (out ++ serializeEntry e) := rfl
    have h2 : SerializeDiffSet (e :: d) [] = SerializeDiffSet d ([] ++ serializeEntry e) := rfl
    rw [h1, h2, ih (out ++ serializeEntry e), ih ([] ++ serializeEntry e)]
    simp

theorem SerializeDiffSet_cons (e : DomainEntryDiff) (d : List DomainEntryDiff) :
    SerializeDiffSet (e :: d) [] = serializeEntry e ++ SerializeDiffSet d [] := by
  have h : SerializeDiffSet (e :: d) [] = SerializeDiffSet d ([] ++ serializeEntry e) := rfl
  rw [h, SerializeDiffSet_out]
  simp

theorem length_le_length_SerializeDiffSet (d : List DomainEntryDiff) :
    d.length ≤ (SerializeDiffSet d []).length := by
  induction d with
  | nil => simp
  | cons e d ih =>
    rw [SerializeDiffSet_cons, List.length_append, List.length_cons]
    have h := List.length_pos.mpr (serializeEntry_ne_nil e)
    omega

theorem DeserializeDiffSetAux_step (fuel : Nat) (e : DomainEntryDiff) (rest : Bytes)
    (h : e.PrevStepBytes.length = 8) :
    DeserializeDiffSetAux (fuel + 1) (serializeEntry e ++ rest) =
      (match DeserializeDiffSetAux fuel rest with
       | none => none
       | some es => some (e :: es)) := by
  have hd := deserializeEntry_serializeEntry e rest h
  cases hs : serializeEntry e ++ rest with
  | nil =>
    exfalso
    have := serializeEntry_ne_nil e
    simp_all
  | cons b bs =>
    rw [hs] at hd
    simp only [DeserializeDiffSetAux, hd]

theorem DeserializeDiffSetAux_SerializeDiffSet (d : List DomainEntryDiff)
    (h : ∀ e ∈ d, e.PrevStepBytes.length = 8) (fuel : Nat) (hf : d.length ≤ fuel) :
    DeserializeDiffSetAux fuel (SerializeDiffSet d []) = some d := by
  induction d generalizing fuel with
  | nil => cases fuel <;> simp [SerializeDiffSet, DeserializeDiffSetAux]
  | cons e d ih =>
    cases fuel with
    | zero => simp at hf
    | succ f =>
      have he : e.PrevStepBytes.length = 8 := h e (List.mem_cons_self e d)
      have hd : ∀ x ∈ d, x.PrevStepBytes.length = 8 :=
        fun x hx => h x (List.mem_cons_of_mem e hx)
      have hf2 : d.length ≤ f := by simpa using hf
      rw [SerializeDiffSet_cons, DeserializeDiffSetAux_step f e _ he, ih hd f hf2]

/-- C1: for every sequence `d` of diff records whose `PrevStepBytes` and `TxNum`
are 8 bytes long (the empty sequence, repeated keys and empty values included),
deserializing the serialization of `d` into an empty buffer gives back `d`: the
same records, field for field, in the same order. -/
theorem DeserializeDiffSet_SerializeDiffSet (d : List DomainEntryDiff)
    (h : ∀ e ∈ d, e.PrevStepBytes.length = 8 ∧ e.TxNum.length = 8) :
    DeserializeDiffSet (SerializeDiffSet d []) = some d :=
  DeserializeDiffSetAux_SerializeDiffSet d (fun e he => (h e he).1) _
    (length_le_length_SerializeDiffSet d)

/-- Witness of C1: the diff set of `TestSerializeDeserializeDiff`. -/
theorem DeserializeDiffSet_SerializeDiffSet_witness :
    (∀ e ∈ testDiffSet, e.PrevStepBytes.length = 8 ∧ e.TxNum.length = 8) ∧
    DeserializeDiffSet (SerializeDiffSet testDiffSet []) = some testDiffSet :=
  ⟨by decide, DeserializeDiffSet_SerializeDiffSet testDiffSet (by decide)⟩

/-! ### Merge -/

theorem mergeEntry_key (second : List DomainEntryDiff) (a : DomainEntryDiff) :
    (mergeEntry second a).Key = a.Key := by
  unfold mergeEntry
  cases h : second.find? (fun b => b.Key == a.Key) with
  | none => rfl
  | some b =>
    have := List.find?_some h
    simpa using this

theorem keys_MergeDiffSets (first second : List DomainEntryDiff) :
    keys (MergeDiffSets first second) =
      keys first ++ (keys second).filter (fun k => decide (k ∉ keys first)) := by
  unfold MergeDiffSets keys
  rw [List.map_append, List.map_map]
  congr 1
  · apply List.map_congr_left
    intro a _
    exact mergeEntry_key second a
  · rw [List.filter_map]
    congr 1
    apply List.filter_congr
    intro b _
    simp only [Function.comp]
    rw [Bool.eq_iff_iff]
    simp only [Bool.not_eq_true', List.any_eq_false, beq_iff_eq, decide_eq_true_eq,
      List.mem_map, not_exists, not_and]

theorem find?_of_mem_nodup (d : List DomainEntryDiff) (hd : (keys d).Nodup)
    (e : DomainEntryDiff) (he : e ∈ d) : d.find? (fun b => b.Key == e.Key) = some e := by
  induction d with
  | nil => simp at he
  | cons x d ih =>
    simp only [keys, List.map_cons, List.nodup_cons] at hd
    rcases List.mem_cons.mp he with heq | hmem
    · subst heq
      exact List.find?_cons_of_pos _ (by simp)
    · have hne : x.Key ≠ e.Key := by
        intro hk
        exact hd.1 (hk ▸ List.mem_map_of_mem _ hmem)
      rw [List.find?_cons_of_neg _ (by simpa using hne)]
      exact ih hd.2 hmem

theorem find?_of_not_mem_keys (d : List DomainEntryDiff) (k : Bytes) (hk : k ∉ keys d) :
    d.find? (fun b => b.Key == k) = none := by
  simp only [List.find?_eq_none, beq_iff_eq]
  intro x hx hxk
  exact hk (hxk ▸ List.mem_map_of_mem _ hx)

theorem filter_key_of_mem_nodup (d : List DomainEntryDiff) (hd : (keys d).Nodup)
    (e : DomainEntryDiff) (he : e ∈ d) : d.filter (fun b => b.Key == e.Key) = [e] := by
  induction d with
  | nil => simp at he
  | cons x d ih =>
    simp only [keys, List.map_cons, List.nodup_cons] at hd
    rcases List.mem_cons.mp he with heq | hmem
    · subst heq
      have : d.filter (fun b => b.Key == e.Key) = [] := by
        simp only [List.filter_eq_nil_iff, beq_iff_eq]
        intro y hy hyk
        exact hd.1 (hyk ▸ List.mem_map_of_mem _ hy)
      rw [List.filter_cons_of_pos (by simp), this]
    · have hne : x.Key ≠ e.Key := by
        intro hk
        exact hd.1 (hk ▸ List.mem_map_of_mem _ hmem)
      rw [List.filter_cons_of_neg (by simpa using hne)]
      exact ih hd.2 hmem

theorem filter_key_of_not_mem_keys (d : List DomainEntryDiff) (k : Bytes)
    (hk : k ∉ keys d) : d.filter (fun b => b.Key == k) = [] := by
  simp only [List.filter_eq_nil_iff, beq_iff_eq]
  intro x hx hxk
  exact hk (hxk ▸ List.mem_map_of_mem _ hx)

theorem filter_key_MergeDiffSets (first second : List DomainEntryDiff) (k : Bytes) :
    (MergeDiffSets first second).filter (fun e => e.Key == k) =
      (first.filter (fun a => a.Key == k)).map (mergeEntry second)
      ++ (if k ∈ keys first then [] else second.filter (fun b => b.Key == k)) := by
  unfold MergeDiffSets
  rw [List.filter_append, List.filter_map]
  congr 1
  · congr 1
    apply List.filter_congr
    intro a _
    simp only [Function.comp, mergeEntry_key]
  · rw [List.filter_filter]
    by_cases hk : k ∈ keys first
    · simp only [hk, if_true, List.filter_eq_nil_iff]
      intro b _
      obtain ⟨a, ha, hak⟩ := List.mem_map.mp hk
      simp only [Bool.and_eq_true, beq_iff_eq, Bool.not_eq_true', List.any_eq_false, not_and]
      intro hbk h2
      exact absurd (hak.trans hbk.symm) (by simpa using h2 a ha)
    · simp only [hk, if_false]
      apply List.filter_congr
      intro b _
      by_cases hbk : b.Key = k
      · subst hbk
        have : (first.any fun a => a.Key == b.Key) = false := by
          simp only [List.any_eq_false, beq_iff_eq]
          intro a ha hab
          exact hk (hab ▸ List.mem_map_of_mem _ ha)
        simp [this]
      · simp [hbk]

/-- C2: for diff sets `A` and `B` with pairwise distinct keys each, the entries of
`MergeDiffSets A B` under a key present in both sets are exactly `B`'s entry (and
not `A`'s), under a key only in `A` exactly `A`'s entry, under a key only in `B`
exactly `B`'s entry, and no entry has a key outside both sets. -/
theorem MergeDiffSets_content (A B : List DomainEntryDiff)
    (hA : (keys A).Nodup) (hB : (keys B).Nodup) :
    (∀ a ∈ A, ∀ b ∈ B, a.Key = b.Key →
      (MergeDiffSets A B).filter (fun e => e.Key == b.Key) = [b]) ∧
    (∀ a ∈ A, a.Key ∉ keys B →
      (MergeDiffSets A B).filter (fun e => e.Key == a.Key) = [a]) ∧
    (∀ b ∈ B, b.Key ∉ keys A →
      (MergeDiffSets A B).filter (fun e => e.Key == b.Key) = [b]) ∧
    (∀ e ∈ MergeDiffSets A B, e.Key ∈ keys A ∨ e.Key ∈ keys B) := by
  refine ⟨?_, ?_, ?_, ?_⟩
  · intro a ha b hb hab
    have hk : b.Key ∈ keys A := hab ▸ List.mem_map_of_mem _ ha
    have hfa : A.filter (fun x => x.Key == b.Key) = [a] :=
      hab ▸ filter_key_of_mem_nodup A hA a ha
    have hfb : B.find? (fun x => x.Key == a.Key) = some b :=
      hab ▸ find?_of_mem_nodup B hB b hb
    rw [filter_key_MergeDiffSets, hfa]
    simp [hk, mergeEntry, hfb]
  · intro a ha hk
    have hkA : a.Key ∈ keys A := List.mem_map_of_mem _ ha
    rw [filter_key_MergeDiffSets, filter_key_of_mem_nodup A hA a ha]
    simp [hkA, mergeEntry, find?_of_not_mem_keys B a.Key hk]
  · intro b hb hk
    rw [filter_key_MergeDiffSets, filter_key_of_not_mem_keys A b.Key hk,
      filter_key_of_mem_nodup B hB b hb]
    simp [hk]
  · intro e he
    have hmem : e.Key ∈ keys (MergeDiffSets A B) := List.mem_map_of_mem _ he
    rw [keys_MergeDiffSets, List.mem_append, List.mem_filter] at hmem
    rcases hmem with h | h
    · exact Or.inl h
    · exact Or.inr h.1

/-- Witness of C2: the two diff sets of `TestMergeDiffSet`. -/
theorem MergeDiffSets_content_witness :
    (keys testMergeFirst).Nodup ∧ (keys testMergeSecond).Nodup ∧
    (∀ a ∈ testMergeFirst, ∀ b ∈ testMergeSecond, a.Key = b.Key →
      (MergeDiffSets testMergeFirst testMergeSecond).filter
        (fun e => e.Key == b.Key) = [b]) :=
  ⟨by decide, by decide,
    (MergeDiffSets_content testMergeFirst testMergeSecond (by decide) (by decide)).1⟩

/-- C3: for diff sets `A` and `B` with pairwise distinct keys each, the keys of
`MergeDiffSets A B` are the keys of `A` in `A`'s order followed by the keys of `B`
that do not occur in `A`, in `B`'s order; the result has as many entries as there
are keys in the union of both key sets; and on the sets of `TestMergeDiffSet`
(keys k1,k2,k3 and k1,k3,k4) the result is `[B[0], A[1], B[1], B[2]]`. -/
theorem MergeDiffSets_positions (A B : List DomainEntryDiff)
    (hA : (keys A).Nodup) (hB : (keys B).Nodup) :
    keys (MergeDiffSets A B) =
      keys A ++ (keys B).filter (fun k => decide (k ∉ keys A)) ∧
    (MergeDiffSets A B).length = ((keys A).toFinset ∪ (keys B).toFinset).card ∧
    MergeDiffSets testMergeFirst testMergeSecond =
      [testMergeSecond.get ⟨0, by decide⟩, testMergeFirst.get ⟨1, by decide⟩,
        testMergeSecond.get ⟨1, by decide⟩, testMergeSecond.get ⟨2, by decide⟩] := by
  refine ⟨keys_MergeDiffSets A B, ?_, by decide⟩
  have hk := keys_MergeDiffSets A B
  have hnd : (keys (MergeDiffSets A B)).Nodup := by
    rw [hk, List.nodup_append]
    refine ⟨hA, hB.filter _, ?_⟩
    intro k hkA hkB
    have := (List.mem_filter.mp hkB).2
    simp only [decide_eq_true_eq] at this
    exact this hkA
  have hset : (keys (MergeDiffSets A B)).toFinset =
      (keys A).toFinset ∪ (keys B).toFinset := by
    ext k
    simp only [hk, List.mem_toFinset, List.mem_append, List.mem_filter,
      decide_eq_true_eq, Finset.mem_union]
    tauto
  rw [← hset, List.toFinset_card_of_nodup hnd]
  simp [keys]

/-- Witness of C3: the two diff sets of `TestMergeDiffSet` give four entries. -/
theorem MergeDiffSets_positions_witness :
    (keys testMergeFirst).Nodup ∧ (keys testMergeSecond).Nodup ∧
    (MergeDiffSets testMergeFirst testMergeSecond).length =
      ((keys testMergeFirst).toFinset ∪ (keys testMergeSecond).toFinset).card :=
  ⟨by decide, by decide,
    (MergeDiffSets_positions testMergeFirst testMergeSecond (by decide) (by decide)).2.1⟩

end state

/-! ### Block borders and the block scan -/

namespace stagedsync

theorem u64sub_of_le (a b : Nat) (hba : b ≤ a) (ha : a < 2 ^ 64) : u64sub a b = a - b := by
  unfold u64sub u64
  rw [Nat.mod_eq_of_lt ha, Nat.mod_eq_of_lt (lt_of_le_of_lt hba ha)]
  have h1 : a + 2 ^ 64 - b = (a - b) + 2 ^ 64 := by omega
  rw [h1, Nat.add_mod_right, Nat.mod_eq_of_lt (by omega)]

/-- C7: for block borders with `FirstTx ≤ CurrentTx ≤ LastTx` (64-bit values),
`Offset()` is 0 if `CurrentTx` equals `FirstTx` or `LastTx`, and is
`CurrentTx - FirstTx`, which is not 0, if `FirstTx < CurrentTx < LastTx`; so
`Offset()` is 0 exactly when the target is on a border of the block. -/
theorem blockBorders_Offset_border (b : blockBorders)
    (hF : b.FirstTx ≤ b.CurrentTx) (hL : b.CurrentTx ≤ b.LastTx) (hU : b.LastTx < 2 ^ 64) :
    ((b.CurrentTx = b.FirstTx ∨ b.CurrentTx = b.LastTx) → b.Offset = 0) ∧
    ((b.FirstTx < b.CurrentTx ∧ b.CurrentTx < b.LastTx) →
      b.Offset = b.CurrentTx - b.FirstTx ∧ b.Offset ≠ 0) ∧
    (b.Offset = 0 ↔ (b.CurrentTx = b.FirstTx ∨ b.CurrentTx = b.LastTx)) := by
  have hsub : u64sub b.CurrentTx b.FirstTx = b.CurrentTx - b.FirstTx :=
    u64sub_of_le _ _ hF (lt_of_le_of_lt hL hU)
  unfold blockBorders.Offset
  rw [hsub]
  refine ⟨?_, ?_, ?_⟩
  · intro h
    have : ¬ (b.CurrentTx > b.FirstTx ∧ b.CurrentTx < b.LastTx) := by omega
    simp [this]
  · intro h
    have h2 : b.CurrentTx > b.FirstTx ∧ b.CurrentTx < b.LastTx := ⟨h.1, h.2⟩
    simp only [h2, and_self, if_true, true_and]
    omega
  · by_cases h : b.CurrentTx > b.FirstTx ∧ b.CurrentTx < b.LastTx
    · simp only [h, and_self, if_true]
      omega
    · simp only [h, if_false, true_iff]
      omega

/-- Witness of C7: the borders 10, 15 with the target inside, at 12. -/
theorem blockBorders_Offset_border_witness :
    (({ Number := 3, FirstTx := 10, CurrentTx := 12, LastTx := 15 } : blockBorders).Offset
      = 0 ↔ ((12 : Nat) = 10 ∨ (12 : Nat) = 15)) :=
  (blockBorders_Offset_border { Number := 3, FirstTx := 10, CurrentTx := 12, LastTx := 15 }
    (by decide) (by decide) (by decide)).2.2

theorem u64_of_lt (a : Nat) (h : a < 2 ^ 64) : u64 a = a := Nat.mod_eq_of_lt h

theorem u64_counter (c m : Nat) (h : c + (2 + m) < 2 ^ 64) :
    u64 (u64 (u64 (c + 1) + m) + 1) = c + (2 + m) := by
  rw [u64_of_lt (c + 1) (by omega), u64_of_lt (c + 1 + m) (by omega),
    u64_of_lt (c + 1 + m + 1) (by omega)]
  omega

theorem counterBefore_mono (slots : Nat) (n : Nat → Nat) (a b : Nat) (h : a ≤ b) :
    counterBefore slots n a ≤ counterBefore slots n b := by
  induction b with
  | zero =>
    have : a = 0 := by omega
    subst this; exact le_refl _
  | succ b ih =>
    rcases Nat.eq_or_lt_of_le h with heq | hlt
    · subst heq; exact le_refl _
    · have := ih (by omega)
      simp only [counterBefore]
      omega

theorem two_mul_le_counterBefore (n : Nat → Nat) (i : Nat) :
    2 * i ≤ counterBefore 2 n i := by
  induction i with
  | zero => simp [counterBefore]
  | succ i ih => simp only [counterBefore]; omega

theorem countBlockByTxnumLoop_step (n : Nat → Nat) (root : Hash) (txnum fuel k c : Nat)
    (h : c + (2 + n k) < 2 ^ 64) :
    countBlockByTxnumLoop (chainReader n root) txnum (fuel + 1) k c =
      if c + (2 + n k) ≥ txnum then
        Except.ok { Number := k, FirstTx := c, CurrentTx := txnum, LastTx := c + (2 + n k) }
      else countBlockByTxnumLoop (chainReader n root) txnum fuel (k + 1) (c + (2 + n k)) := by
  simp only [countBlockByTxnumLoop, chainReader, List.length_replicate, u64_counter c (n k) h]

theorem countBlockByTxnumLoop_chain (n : Nat → Nat) (root : Hash) (txnum i : Nat)
    (hreach : txnum ≤ counterBefore 2 n (i + 1))
    (hleast : ∀ j < i, counterBefore 2 n (j + 1) < txnum)
    (hfit : counterBefore 2 n (i + 1) < 2 ^ 64) (d : Nat) :
    ∀ k fuel, k + d = i → d < fuel →
      countBlockByTxnumLoop (chainReader n root) txnum fuel k (counterBefore 2 n k) =
        Except.ok { Number := i, FirstTx := counterBefore 2 n i, CurrentTx := txnum,
                    LastTx := counterBefore 2 n (i + 1) } := by
  induction d with
  | zero =>
    intro k fuel hk hfuel
    have hki : k = i := by omega
    subst hki
    obtain ⟨f, rfl⟩ : ∃ f, fuel = f + 1 := ⟨fuel - 1, by omega⟩
    have hc : counterBefore 2 n k + (2 + n k) = counterBefore 2 n (k + 1) := rfl
    rw [countBlockByTxnumLoop_step n root txnum f k _ (by rw [hc]; exact hfit), hc]
    simp [hreach]
  | succ d ih =>
    intro k fuel hk hfuel
    obtain ⟨f, rfl⟩ : ∃ f, fuel = f + 1 := ⟨fuel - 1, by omega⟩
    have hc : counterBefore 2 n k + (2 + n k) = counterBefore 2 n (k + 1) := rfl
    have hmono := counterBefore_mono 2 n (k + 1) (i + 1) (by omega)
    have hlt := hleast k (by omega)
    rw [countBlockByTxnumLoop_step n root txnum f k _ (by rw [hc]; omega), hc]
    have hnot : ¬ (counterBefore 2 n (k + 1) ≥ txnum) := by omega
    rw [if_neg hnot]
    exact ih (k + 1) f (by omega) (by omega)

/-- C9 (amended): on a chain given by its per-block transaction counts `n` whose
header and body reads all succeed, if block `i` is the least block such that the
running counter after it reaches or passes `txnum`, where the counter advances per
scanned block by two slots plus one slot per transaction of the body (counter after
block `i` = sum over `j ≤ i` of `2 + n j`) and stays below `2^64`, then
`countBlockByTxnum` returns block number `i`, `FirstTx` the counter before block
`i`, `LastTx` the counter after block `i`, and `CurrentTx = txnum`. -/
theorem countBlockByTxnum_chain (n : Nat → Nat) (root : Hash) (txnum i : Nat)
    (hreach : txnum ≤ counterBefore 2 n (i + 1))
    (hleast : ∀ j < i, counterBefore 2 n (j + 1) < txnum)
    (hfit : counterBefore 2 n (i + 1) < 2 ^ 64) :
    countBlockByTxnum (chainReader n root) txnum =
      Except.ok { Number := i, FirstTx := counterBefore 2 n i, CurrentTx := txnum,
                  LastTx := counterBefore 2 n (i + 1) } := by
  have h2 := two_mul_le_counterBefore n (i + 1)
  have hfuel : i < MaxUint64 := by unfold MaxUint64; omega
  have := countBlockByTxnumLoop_chain n root txnum i hreach hleast hfit i 0 MaxUint64
    (by omega) hfuel
  simpa [countBlockByTxnum, counterBefore] using this

/-- Witness of C9 (amended): blocks of one transaction each and the target 5, which
lies in block 1 (counter 3 before it, 6 after it). -/
theorem countBlockByTxnum_chain_witness :
    countBlockByTxnum (chainReader (fun _ => 1) (hashOf 1)) 5 =
      Except.ok { Number := 1, FirstTx := 3, CurrentTx := 5, LastTx := 6 } :=
  countBlockByTxnum_chain (fun _ => 1) (hashOf 1) 5 1 (by decide) (by decide) (by decide)

theorem exists_least_block (n : Nat → Nat) (txnum : Nat) :
    ∃ i, txnum ≤ counterBefore 2 n (i + 1) ∧ ∀ j < i, counterBefore 2 n (j + 1) < txnum := by
  have hex : ∃ i, txnum ≤ counterBefore 2 n (i + 1) :=
    ⟨txnum, by have := two_mul_le_counterBefore n (txnum + 1); omega⟩
  refine ⟨Nat.find hex, Nat.find_spec hex, ?_⟩
  intro j hj
  have := Nat.find_min hex hj
  omega

/-- Counterexample to C9 as stated: on a chain of empty blocks and for the target
2, counting one slot for the block marker plus one per transaction makes block 1
the least block whose counter reaches the target (counter 1 after block 0, 2 after
block 1); the scan does not return block 1 with borders 1 and 2 but block 0 with
borders 0 and 2. -/
theorem countBlockByTxnum_one_slot_counterexample :
    (2 ≤ counterBefore 1 (fun _ => 0) (1 + 1) ∧
      ∀ j < 1, counterBefore 1 (fun _ => 0) (j + 1) < 2) ∧
    countBlockByTxnum (chainReader (fun _ => 0) (hashOf 1)) 2 ≠
      Except.ok { Number := 1, FirstTx := counterBefore 1 (fun _ => 0) 1, CurrentTx := 2,
                  LastTx := counterBefore 1 (fun _ => 0) (1 + 1) } ∧
    countBlockByTxnum (chainReader (fun _ => 0) (hashOf 1)) 2 =
      Except.ok { Number := 0, FirstTx := 0, CurrentTx := 2, LastTx := 2 } := by
  decide

/-! ### The rebuild -/

theorem collectAndComputeCommitment_val (tx : RwTx) (agg : Aggregator) (toTxNum : Nat) :
    (collectAndComputeCommitment tx agg toTxNum).val = [] := by
  unfold collectAndComputeCommitment
  repeat' (first | rfl | split | dsimp only)

theorem collectAndComputeCommitment_events (tx : RwTx) (agg : Aggregator) (toTxNum : Nat) :
    (∀ n, Event.HeaderByNumber n ∉ (collectAndComputeCommitment tx agg toTxNum).events) ∧
    Event.CompareRoot ∉ (collectAndComputeCommitment tx agg toTxNum).events := by
  unfold collectAndComputeCommitment
  repeat' (first | split | dsimp only)
  all_goals simp

theorem Hash.bytes_ne_nil (h : Hash) : ([] : Bytes) ≠ h.bytes := by
  intro hnil
  have := h.property
  unfold Hash.bytes at hnil
  rw [← hnil] at this
  simp at this

theorem locateBlock_fallback (tx : RwTx) (cfg : TrieCfg) (toTxNum blockNum : Nat)
    (bb : blockBorders) (hfind : tx.FindBlockNum 0 toTxNum = Except.ok (false, blockNum))
    (hscan : countBlockByTxnum cfg.blockReader toTxNum = Except.ok bb) :
    (locateBlock tx cfg toTxNum).1 = Except.ok (bb.Number, bb.Offset != 0) := by
  simp only [locateBlock, hfind, hscan]

theorem locateBlock_indexed (tx : RwTx) (cfg : TrieCfg) (toTxNum blockNum first last : Nat)
    (hfind : tx.FindBlockNum 0 toTxNum = Except.ok (true, blockNum))
    (hmin : tx.Min blockNum = Except.ok first) (hmax : tx.Max blockNum = Except.ok last) :
    locateBlock tx cfg toTxNum =
      (Except.ok (blockNum, decide (first = toTxNum) || decide (last = toTxNum)),
        [Event.FindBlockNum toTxNum, Event.TxNumsMin blockNum, Event.TxNumsMax blockNum]) := by
  simp only [locateBlock, hfind, hmin, hmax]

theorem computeAndVerify_compared (emptyRoot : Hash) (tx : RwTx) (cfg : TrieCfg)
    (ext : Bool) (toTxNum : Nat) (expected : Hash) (hcheck : cfg.checkRoot = true)
    (hc : (collectAndComputeCommitment tx cfg.agg toTxNum).err = none) :
    (computeAndVerify emptyRoot tx cfg ext toTxNum true expected).val = emptyRoot ∧
    (computeAndVerify emptyRoot tx cfg ext toTxNum true expected).err =
      some Err.wrongTrieRoot := by
  have hne := Hash.bytes_ne_nil expected
  simp only [computeAndVerify, hc, hcheck, collectAndComputeCommitment_val, Bool.and_self,
    if_true, ne_eq, hne, not_false_eq_true, and_self]

theorem collectAndComputeCommitment_ok (tx : RwTx) (agg : Aggregator) (toTxNum b1 : Nat)
    (rh : Bytes) (hdom : tx.NewSharedDomains = none)
    (hfind : tx.FindBlockNum 1 toTxNum = Except.ok (true, b1)) (hstep : agg.StepSize ≠ 0)
    (hcc : tx.ComputeCommitment (u64sub toTxNum 1) b1 = Except.ok rh)
    (hmem : tx.CommitmentInMem (u64sub toTxNum 1 / agg.StepSize)
      (u64sub toTxNum agg.StepSize) toTxNum = none) :
    (collectAndComputeCommitment tx agg toTxNum).err = none := by
  simp only [collectAndComputeCommitment, hdom, hfind, hstep, if_false, hcc, hmem]

theorem RebuildPatriciaTrieBasedOnFiles_val_err (emptyRoot : Hash) (rwTx : Option RwTx)
    (tx : RwTx) (cfg : TrieCfg)
    (htx : rwTx = some tx ∨ (rwTx = none ∧ cfg.db.BeginRw = Except.ok tx)) :
    ∃ ext, (RebuildPatriciaTrieBasedOnFiles emptyRoot rwTx cfg).val =
        (rebuildOn emptyRoot tx cfg ext).val ∧
      (RebuildPatriciaTrieBasedOnFiles emptyRoot rwTx cfg).err =
        (rebuildOn emptyRoot tx cfg ext).err := by
  rcases htx with h | ⟨h, hb⟩
  · exact ⟨true, by simp [RebuildPatriciaTrieBasedOnFiles, h]⟩
  · exact ⟨false, by simp [RebuildPatriciaTrieBasedOnFiles, h, hb]⟩

/-- C4 (the code at the failing input): the target 10 is the first transaction of
the indexed block 3, `checkRoot` is set, the header declares the root `R`, every
storage operation succeeds and the commitment computation produces `R`; the rebuild
returns `trie.EmptyRoot` and the error "wrong trie root". -/
theorem RebuildPatriciaTrieBasedOnFiles_matching_root_rejected :
    (locateBlock (borderTx (hashOf 1).bytes) (okCfg (borderTx (hashOf 1).bytes) true (hashOf 1))
      10).1 = Except.ok (3, true) ∧
    (borderTx (hashOf 1).bytes).ComputeCommitment 9 3 = Except.ok (hashOf 1).bytes ∧
    (RebuildPatriciaTrieBasedOnFiles (hashOf 9) (some (borderTx (hashOf 1).bytes))
      (okCfg (borderTx (hashOf 1).bytes) true (hashOf 1))).err = some Err.wrongTrieRoot ∧
    (RebuildPatriciaTrieBasedOnFiles (hashOf 9) (some (borderTx (hashOf 1).bytes))
      (okCfg (borderTx (hashOf 1).bytes) true (hashOf 1))).val = hashOf 9 := by
  decide

/-- C5 (the code at the failing input): the target 12 lies inside the indexed block
3, so no header comparison is made, every storage operation succeeds and the
commitment computation produces the digest `R` (32 bytes 0x01);
`collectAndComputeCommitment` returns the nil slice without error, and the rebuild
returns the zero hash, not `R`. -/
theorem RebuildPatriciaTrieBasedOnFiles_digest_dropped :
    (interiorTx (hashOf 1).bytes).ComputeCommitment 11 3 = Except.ok (hashOf 1).bytes ∧
    (collectAndComputeCommitment (interiorTx (hashOf 1).bytes) { StepSize := 4 } 12).err
      = none ∧
    (collectAndComputeCommitment (interiorTx (hashOf 1).bytes) { StepSize := 4 } 12).val
      = [] ∧
    (RebuildPatriciaTrieBasedOnFiles (hashOf 9) (some (interiorTx (hashOf 1).bytes))
      (okCfg (interiorTx (hashOf 1).bytes) true (hashOf 1))).err = none ∧
    (RebuildPatriciaTrieBasedOnFiles (hashOf 9) (some (interiorTx (hashOf 1).bytes))
      (okCfg (interiorTx (hashOf 1).bytes) true (hashOf 1))).val = Hash.zero ∧
    Hash.zero ≠ hashOf 1 := by
  decide

/-- Counterexample to C6 as stated: the target is a comparison point, `checkRoot` is
set, the computed root (32 bytes 0x02) differs from the header's root (32 bytes
0x01); the returned error is "wrong trie root", which neither is nor wraps
`ErrInvalidStateRootHash`. -/
theorem RebuildPatriciaTrieBasedOnFiles_mismatch_counterexample :
    (hashOf 2).bytes ≠ (hashOf 1).bytes ∧
    (RebuildPatriciaTrieBasedOnFiles (hashOf 9) (some (borderTx (hashOf 2).bytes))
      (okCfg (borderTx (hashOf 2).bytes) true (hashOf 1))).err = some Err.wrongTrieRoot ∧
    errorsIs Err.wrongTrieRoot ErrInvalidStateRootHash = false := by
  decide

/-- C6 (amended): in every run in which the target is a comparison point,
`checkRoot` is set, the header is found, the storage operations succeed and the
computed root differs from the header's declared root, the rebuild returns
`trie.EmptyRoot` and the error "wrong trie root", an error that neither is nor
wraps the sentinel `ErrInvalidStateRootHash`. -/
theorem RebuildPatriciaTrieBasedOnFiles_mismatch (emptyRoot : Hash) (rwTx : Option RwTx)
    (tx : RwTx) (cfg : TrieCfg) (blockNum b1 : Nat) (h : Header) (rh : Bytes)
    (htx : rwTx = some tx ∨ (rwTx = none ∧ cfg.db.BeginRw = Except.ok tx))
    (hloc : (locateBlock tx cfg tx.EndTxNumNoCommitment).1 = Except.ok (blockNum, true))
    (hcheck : cfg.checkRoot = true)
    (hhdr : cfg.blockReader.HeaderByNumber blockNum = Except.ok (some h))
    (hdom : tx.NewSharedDomains = none)
    (hfind : tx.FindBlockNum 1 tx.EndTxNumNoCommitment = Except.ok (true, b1))
    (hstep : cfg.agg.StepSize ≠ 0)
    (hcc : tx.ComputeCommitment (u64sub tx.EndTxNumNoCommitment 1) b1 = Except.ok rh)
    (hmem : tx.CommitmentInMem (u64sub tx.EndTxNumNoCommitment 1 / cfg.agg.StepSize)
      (u64sub tx.EndTxNumNoCommitment cfg.agg.StepSize) tx.EndTxNumNoCommitment = none)
    (_hne : rh ≠ h.Root.bytes) :
    (RebuildPatriciaTrieBasedOnFiles emptyRoot rwTx cfg).val = emptyRoot ∧
    (RebuildPatriciaTrieBasedOnFiles emptyRoot rwTx cfg).err = some Err.wrongTrieRoot ∧
    errorsIs Err.wrongTrieRoot ErrInvalidStateRootHash = false := by
  obtain ⟨ext, hv, he⟩ := RebuildPatriciaTrieBasedOnFiles_val_err emptyRoot rwTx tx cfg htx
  have hc := collectAndComputeCommitment_ok tx cfg.agg _ b1 rh hdom hfind hstep hcc hmem
  have hcv := computeAndVerify_compared emptyRoot tx cfg ext tx.EndTxNumNoCommitment h.Root
    hcheck hc
  rw [hv, he]
  cases hl : locateBlock tx cfg tx.EndTxNumNoCommitment with
  | mk res evs =>
    rw [hl] at hloc
    simp only at hloc
    subst hloc
    simp only [rebuildOn, hl, fetchExpectedRoot, hcheck, Bool.and_self, if_true, hhdr, hcv]
    exact ⟨trivial, trivial, by decide⟩

/-- Witness of C6 (amended): the run of the counterexample. -/
theorem RebuildPatriciaTrieBasedOnFiles_mismatch_witness :
    (RebuildPatriciaTrieBasedOnFiles (hashOf 9) (some (borderTx (hashOf 2).bytes))
      (okCfg (borderTx (hashOf 2).bytes) true (hashOf 1))).val = hashOf 9 ∧
    (RebuildPatriciaTrieBasedOnFiles (hashOf 9) (some (borderTx (hashOf 2).bytes))
      (okCfg (borderTx (hashOf 2).bytes) true (hashOf 1))).err = some Err.wrongTrieRoot ∧
    errorsIs Err.wrongTrieRoot ErrInvalidStateRootHash = false :=
  RebuildPatriciaTrieBasedOnFiles_mismatch (hashOf 9) (some (borderTx (hashOf 2).bytes))
    (borderTx (hashOf 2).bytes) (okCfg (borderTx (hashOf 2).bytes) true (hashOf 1)) 3 3
    { Root := hashOf 1, HashValue := hashOf 7 } (hashOf 2).bytes
    (Or.inl rfl) (by decide) rfl rfl rfl rfl (by decide) rfl rfl (by decide)

/-- C8 (the code at the failing input): the index has no entry and the scan runs on
a chain of empty blocks. For the target 2 the borders are 0 and 2, `Offset()` is 0
and `foundHash` is false; for the target 1 the borders are the same, `Offset()` is 1
and `foundHash` is true. -/
theorem locateBlock_fallback_inverted :
    countBlockByTxnum (chainReader (fun _ => 0) (hashOf 1)) 2 =
      Except.ok { Number := 0, FirstTx := 0, CurrentTx := 2, LastTx := 2 } ∧
    ({ Number := 0, FirstTx := 0, CurrentTx := 2, LastTx := 2 } : blockBorders).Offset = 0 ∧
    (locateBlock (unindexedTx 2) (okCfg (unindexedTx 2) true (hashOf 1)) 2).1 =
      Except.ok (0, false) ∧
    countBlockByTxnum (chainReader (fun _ => 0) (hashOf 1)) 1 =
      Except.ok { Number := 0, FirstTx := 0, CurrentTx := 1, LastTx := 2 } ∧
    ({ Number := 0, FirstTx := 0, CurrentTx := 1, LastTx := 2 } : blockBorders).Offset = 1 ∧
    (locateBlock (unindexedTx 1) (okCfg (unindexedTx 1) true (hashOf 1)) 1).1 =
      Except.ok (0, true) := by
  decide

theorem computeAndVerify_not_found_events (emptyRoot : Hash) (tx : RwTx) (cfg : TrieCfg)
    (ext : Bool) (toTxNum : Nat) (expected : Hash) :
    (∀ n, Event.HeaderByNumber n ∉
      (computeAndVerify emptyRoot tx cfg ext toTxNum false expected).events) ∧
    Event.CompareRoot ∉ (computeAndVerify emptyRoot tx cfg ext toTxNum false expected).events := by
  have hc := collectAndComputeCommitment_events tx cfg.agg toTxNum
  unfold computeAndVerify
  simp only [Bool.false_and, Bool.false_eq_true, if_false]
  repeat' (first | split | dsimp only)
  all_goals simp [hc.1, hc.2]

/-- C10: when the indexed lookup finds block `blockNum` for the target `toTxNum` and
the block's first and last transaction numbers are read, `foundHash` is true if and
only if `toTxNum` equals the first or the last of them; and for a `toTxNum` strictly
between them the run fetches no header and compares no root. -/
theorem RebuildPatriciaTrieBasedOnFiles_indexed_foundHash (emptyRoot : Hash)
    (rwTx : Option RwTx) (tx : RwTx) (cfg : TrieCfg) (blockNum first last : Nat)
    (htx : rwTx = some tx ∨ (rwTx = none ∧ cfg.db.BeginRw = Except.ok tx))
    (hfind : tx.FindBlockNum 0 tx.EndTxNumNoCommitment = Except.ok (true, blockNum))
    (hmin : tx.Min blockNum = Except.ok first) (hmax : tx.Max blockNum = Except.ok last) :
    (∃ foundHash,
      (locateBlock tx cfg tx.EndTxNumNoCommitment).1 = Except.ok (blockNum, foundHash) ∧
      (foundHash = true ↔
        (tx.EndTxNumNoCommitment = first ∨ tx.EndTxNumNoCommitment = last))) ∧
    ((first < tx.EndTxNumNoCommitment ∧ tx.EndTxNumNoCommitment < last) →
      (∀ n, Event.HeaderByNumber n ∉
        (RebuildPatriciaTrieBasedOnFiles emptyRoot rwTx cfg).events) ∧
      Event.CompareRoot ∉ (RebuildPatriciaTrieBasedOnFiles emptyRoot rwTx cfg).events) := by
  have hloc := locateBlock_indexed tx cfg tx.EndTxNumNoCommitment blockNum first last
    hfind hmin hmax
  refine ⟨⟨_, by rw [hloc], ?_⟩, ?_⟩
  · simp only [Bool.or_eq_true, decide_eq_true_eq]
    constructor
    · rintro (h | h)
      · exact Or.inl h.symm
      · exact Or.inr h.symm
    · rintro (h | h)
      · exact Or.inl h.symm
      · exact Or.inr h.symm
  · intro hbetween
    have h1 : decide (first = tx.EndTxNumNoCommitment) = false := by
      simp only [decide_eq_false_iff_not]; omega
    have h2 : decide (last = tx.EndTxNumNoCommitment) = false := by
      simp only [decide_eq_false_iff_not]; omega
    have hev : ∀ ext, (rebuildOn emptyRoot tx cfg ext).events =
        [Event.FindBlockNum tx.EndTxNumNoCommitment, Event.TxNumsMin blockNum,
          Event.TxNumsMax blockNum] ++
        (computeAndVerify emptyRoot tx cfg ext tx.EndTxNumNoCommitment false
          Hash.zero).events := by
      intro ext
      simp [rebuildOn, hloc, h1, h2, fetchExpectedRoot]
    rcases htx with h | ⟨h, hb⟩
    · have hc := computeAndVerify_not_found_events emptyRoot tx cfg true
        tx.EndTxNumNoCommitment Hash.zero
      simp [RebuildPatriciaTrieBasedOnFiles, h, hev, hc.1, hc.2]
    · have hc := computeAndVerify_not_found_events emptyRoot tx cfg false
        tx.EndTxNumNoCommitment Hash.zero
      simp [RebuildPatriciaTrieBasedOnFiles, h, hb, hev, hc.1, hc.2]

/-- Witness of C10: the target 12 inside the indexed block 3 with borders 10, 15. -/
theorem RebuildPatriciaTrieBasedOnFiles_indexed_foundHash_witness :
    ((10 : Nat) < 12 ∧ (12 : Nat) < 15) ∧
    (∀ n, Event.HeaderByNumber n ∉
      (RebuildPatriciaTrieBasedOnFiles (hashOf 9) (some (interiorTx (hashOf 1).bytes))
        (okCfg (interiorTx (hashOf 1).bytes) true (hashOf 1))).events) ∧
    Event.CompareRoot ∉
      (RebuildPatriciaTrieBasedOnFiles (hashOf 9) (some (interiorTx (hashOf 1).bytes))
        (okCfg (interiorTx (hashOf 1).bytes) true (hashOf 1))).events :=
  ⟨by decide,
    (RebuildPatriciaTrieBasedOnFiles_indexed_foundHash (hashOf 9)
      (some (interiorTx (hashOf 1).bytes)) (interiorTx (hashOf 1).bytes)
      (okCfg (interiorTx (hashOf 1).bytes) true (hashOf 1)) 3 10 15
      (Or.inl rfl) rfl rfl rfl).2 (by decide)⟩

/-! ### Transaction ownership, flags and step arithmetic -/

/-- C11 (the code at the failing input): the caller supplies the transaction, the
target 10 is a comparison point, `checkRoot` is set and the computed root (32 bytes
0x02) differs from the header's root (32 bytes 0x01); the run fails with "wrong
trie root" and the calls it made include `Rollback` on the caller's transaction
(and no `Commit`). -/
theorem RebuildPatriciaTrieBasedOnFiles_external_rollback :
    (RebuildPatriciaTrieBasedOnFiles (hashOf 9) (some (borderTx (hashOf 2).bytes))
      (okCfg (borderTx (hashOf 2).bytes) true (hashOf 1))).err = some Err.wrongTrieRoot ∧
    Event.Rollback ∈
      (RebuildPatriciaTrieBasedOnFiles (hashOf 9) (some (borderTx (hashOf 2).bytes))
        (okCfg (borderTx (hashOf 2).bytes) true (hashOf 1))).events ∧
    Event.Commit ∉
      (RebuildPatriciaTrieBasedOnFiles (hashOf 9) (some (borderTx (hashOf 2).bytes))
        (okCfg (borderTx (hashOf 2).bytes) true (hashOf 1))).events := by
  decide

/-- C13 (the code at the failing input): with `saveNewHashesToDB = false` the run on
the target 12 (step size 4) computes the commitment and still invokes the persist
step `CommitmentInMem`, for step 2 and the range 8 to 12. -/
theorem RebuildPatriciaTrieBasedOnFiles_persists_without_flag :
    (withSaveNewHashesToDB false
      (okCfg (interiorTx (hashOf 1).bytes) true (hashOf 1))).saveNewHashesToDB = false ∧
    Event.ComputeCommitment 3 ∈
      (RebuildPatriciaTrieBasedOnFiles (hashOf 9) (some (interiorTx (hashOf 1).bytes))
        (withSaveNewHashesToDB false
          (okCfg (interiorTx (hashOf 1).bytes) true (hashOf 1)))).events ∧
    Event.CommitmentInMem 2 8 12 ∈
      (RebuildPatriciaTrieBasedOnFiles (hashOf 9) (some (interiorTx (hashOf 1).bytes))
        (withSaveNewHashesToDB false
          (okCfg (interiorTx (hashOf 1).bytes) true (hashOf 1)))).events := by
  decide

/-- The field `saveNewHashesToDB` is read by no function of the file: setting it to
any value leaves the whole run (returned hash, error and calls made) as it was. -/
theorem RebuildPatriciaTrieBasedOnFiles_saveNewHashesToDB_unread (emptyRoot : Hash)
    (rwTx : Option RwTx) (cfg : TrieCfg) (save : Bool) :
    RebuildPatriciaTrieBasedOnFiles emptyRoot rwTx (withSaveNewHashesToDB save cfg) =
      RebuildPatriciaTrieBasedOnFiles emptyRoot rwTx cfg :=
  rfl

theorem step_arith (k S : Nat) (hS : 0 < S) (hk : 1 ≤ k) (hfit : k * S < 2 ^ 64) :
    u64sub (k * S) 1 = k * S - 1 ∧ u64sub (k * S) S = (k - 1) * S ∧
    (k * S - 1) / S = k - 1 := by
  obtain ⟨j, rfl⟩ : ∃ j, k = j + 1 := ⟨k - 1, by omega⟩
  have hmul : (j + 1) * S = j * S + S := Nat.succ_mul j S
  have hpos : 1 ≤ (j + 1) * S := by rw [hmul]; omega
  have hle : S ≤ (j + 1) * S := by rw [hmul]; omega
  refine ⟨u64sub_of_le _ _ hpos hfit, ?_, ?_⟩
  · rw [u64sub_of_le _ _ hle hfit, hmul]
    simp
  · have lo : j * S ≤ (j + 1) * S - 1 := by rw [hmul]; omega
    have hi : (j + 1) * S - 1 < (j + 1) * S := by omega
    simpa using Nat.div_eq_of_lt_le lo hi

/-- C16: in `collectAndComputeCommitment`, for a step size `S > 0` and `k ≥ 1` with
`k * S < 2^64`, a run on `toTxNum = k * S` that reaches the persist call sets the
domain view's transaction number to `k * S - 1` and passes to `CommitmentInMem` the
step index `k - 1` and the range from `(k - 1) * S` to `k * S`. -/
theorem collectAndComputeCommitment_step_aligned (tx : RwTx) (S k b : Nat) (rh : Bytes)
    (hS : 0 < S) (hk : 1 ≤ k) (hfit : k * S < 2 ^ 64)
    (hdom : tx.NewSharedDomains = none)
    (hfind : tx.FindBlockNum 1 (k * S) = Except.ok (true, b))
    (hcc : tx.ComputeCommitment (k * S - 1) b = Except.ok rh) :
    (collectAndComputeCommitment tx { StepSize := S } (k * S)).events =
      [Event.NewSharedDomains, Event.FindBlockNum (k * S), Event.SetTxNum (k * S - 1),
        Event.SetBlockNum b, Event.ComputeCommitment b,
        Event.CommitmentInMem (k - 1) ((k - 1) * S) (k * S), Event.DomainsClose] := by
  obtain ⟨h1, h2, h3⟩ := step_arith k S hS hk hfit
  have hS0 : S ≠ 0 := by omega
  simp only [collectAndComputeCommitment, hdom, hfind, hS0, if_false, h1, h2, h3, hcc]
  split <;> rfl

/-- Witness of C16: step size 4 and `toTxNum = 3 * 4`. -/
theorem collectAndComputeCommitment_step_aligned_witness :
    (collectAndComputeCommitment (interiorTx (hashOf 1).bytes) { StepSize := 4 }
      (3 * 4)).events =
      [Event.NewSharedDomains, Event.FindBlockNum (3 * 4), Event.SetTxNum (3 * 4 - 1),
        Event.SetBlockNum 3, Event.ComputeCommitment 3,
        Event.CommitmentInMem (3 - 1) ((3 - 1) * 4) (3 * 4), Event.DomainsClose] :=
  collectAndComputeCommitment_step_aligned (interiorTx (hashOf 1).bytes) 4 3 3
    (hashOf 1).bytes (by decide) (by decide) (by decide) rfl rfl rfl

/-! ### The index without an entry -/

theorem collectAndComputeCommitment_not_found (tx : RwTx) (agg : Aggregator)
    (toTxNum b1 : Nat) (h1 : tx.FindBlockNum 1 toTxNum = Except.ok (false, b1)) :
    ∃ e, (collectAndComputeCommitment tx agg toTxNum).err = some e ∧
      (tx.NewSharedDomains = none → e = Err.blockNotFoundForTxnum (u64sub toTxNum 1)) ∧
      ∀ b, Event.ComputeCommitment b ∉ (collectAndComputeCommitment tx agg toTxNum).events := by
  cases hd : tx.NewSharedDomains with
  | some e =>
    refine ⟨Err.external e, ?_, ?_, ?_⟩
    · simp [collectAndComputeCommitment, hd]
    · intro h; exact absurd h (by simp)
    · intro b; simp [collectAndComputeCommitment, hd]
  | none =>
    refine ⟨Err.blockNotFoundForTxnum (u64sub toTxNum 1), ?_, ?_, ?_⟩
    · simp [collectAndComputeCommitment, hd, h1]
    · intro _; rfl
    · intro b; simp [collectAndComputeCommitment, hd, h1]

theorem rebuildOn_index_not_found (emptyRoot : Hash) (tx : RwTx) (cfg : TrieCfg)
    (ext : Bool)
    (hnf : ∀ k, ∃ b, tx.FindBlockNum k tx.EndTxNumNoCommitment = Except.ok (false, b)) :
    (rebuildOn emptyRoot tx cfg ext).err ≠ none ∧
    (∀ b, Event.ComputeCommitment b ∉ (rebuildOn emptyRoot tx cfg ext).events) ∧
    (∀ bb, countBlockByTxnum cfg.blockReader tx.EndTxNumNoCommitment = Except.ok bb →
      ((bb.Offset != 0 && cfg.checkRoot) = true →
        ∃ h, cfg.blockReader.HeaderByNumber bb.Number = Except.ok (some h)) →
      tx.NewSharedDomains = none →
      (rebuildOn emptyRoot tx cfg ext).err =
        some (Err.blockNotFoundForTxnum (u64sub tx.EndTxNumNoCommitment 1))) := by
  obtain ⟨b0, h0⟩ := hnf 0
  obtain ⟨b1, h1⟩ := hnf 1
  obtain ⟨e, hce, hcn, hcev⟩ :=
    collectAndComputeCommitment_not_found tx cfg.agg tx.EndTxNumNoCommitment b1 h1
  have hcv : ∀ fh x, computeAndVerify emptyRoot tx cfg ext tx.EndTxNumNoCommitment fh x =
      ⟨emptyRoot, some e, (collectAndComputeCommitment tx cfg.agg
        tx.EndTxNumNoCommitment).events⟩ := by
    intro fh x
    simp [computeAndVerify, hce]
  unfold rebuildOn
  simp only [locateBlock, h0]
  cases hscan : countBlockByTxnum cfg.blockReader tx.EndTxNumNoCommitment with
  | error e1 => simp
  | ok bb =>
    simp only [fetchExpectedRoot]
    by_cases hcond : (bb.Offset != 0 && cfg.checkRoot) = true
    · simp only [hcond, if_true]
      cases hh : cfg.blockReader.HeaderByNumber bb.Number with
      | error e2 =>
        refine ⟨by simp, by simp, ?_⟩
        intro bb2 hbb hhdr _
        obtain ⟨h, hh2⟩ := hhdr (by cases hbb; exact hcond)
        cases hbb
        rw [hh] at hh2
        cases hh2
      | ok o =>
        cases o with
        | none =>
          refine ⟨by simp, by simp, ?_⟩
          intro bb2 hbb hhdr _
          obtain ⟨h, hh2⟩ := hhdr (by cases hbb; exact hcond)
          cases hbb
          rw [hh] at hh2
          cases hh2
        | some h =>
          simp only [hcv]
          refine ⟨by simp, ?_, ?_⟩
          · intro b; simp [hcev b]
          · intro bb2 _ _ hdom
            simp [hcn hdom]
    · simp only [hcond, Bool.false_eq_true, if_false, hcv]
      refine ⟨by simp, ?_, ?_⟩
      · intro b; simp [hcev b]
      · intro bb2 _ _ hdom
        simp [hcn hdom]

/-- Counterexample to C15 as stated: every consultation of the index lookup reports
not-found for the target 2, yet the returned error is not "block not found for
txnum": when the header read of the fallback scan fails, the run returns that
collaborator's error 21; and when the scan locates block 0 but
`state.NewSharedDomains` fails, the run returns that collaborator's error 22. -/
theorem RebuildPatriciaTrieBasedOnFiles_index_not_found_counterexample :
    (∀ k, (okTx 2 (fun _ => false) 0 0 0 []).FindBlockNum k 2 = Except.ok (false, 0) ∧
      (noDomainsTx 2).FindBlockNum k 2 = Except.ok (false, 0)) ∧
    (RebuildPatriciaTrieBasedOnFiles (hashOf 9) (some (okTx 2 (fun _ => false) 0 0 0 []))
      (failingHeaderCfg (okTx 2 (fun _ => false) 0 0 0 []))).err =
      some (Err.external 21) ∧
    countBlockByTxnum (okCfg (noDomainsTx 2) true (hashOf 1)).blockReader 2 =
      Except.ok { Number := 0, FirstTx := 0, CurrentTx := 2, LastTx := 2 } ∧
    (RebuildPatriciaTrieBasedOnFiles (hashOf 9) (some (noDomainsTx 2))
      (okCfg (noDomainsTx 2) true (hashOf 1))).err = some (Err.external 22) ∧
    Err.external 21 ≠ Err.blockNotFoundForTxnum (u64sub 2 1) ∧
    Err.external 22 ≠ Err.blockNotFoundForTxnum (u64sub 2 1) :=
  ⟨fun _ => ⟨rfl, rfl⟩, by decide, by decide, by decide, by decide, by decide⟩

/-- C15 (amended): in every run in which each consultation of the index lookup
`TxNums.FindBlockNum(tx, toTxNum)` reports not-found, the rebuild does not succeed
(it returns an error, or panics on a nil header or body of the scan) and never
invokes the commitment computation; and when the fallback scan located the block,
the header (if one is to be compared) was found and the domain view was opened,
the error is "block not found for txnum" of `toTxNum - 1`, raised by the second
lookup inside `collectAndComputeCommitment`. -/
theorem RebuildPatriciaTrieBasedOnFiles_index_not_found (emptyRoot : Hash)
    (rwTx : Option RwTx) (tx : RwTx) (cfg : TrieCfg)
    (htx : rwTx = some tx ∨ (rwTx = none ∧ cfg.db.BeginRw = Except.ok tx))
    (hnf : ∀ k, ∃ b, tx.FindBlockNum k tx.EndTxNumNoCommitment = Except.ok (false, b)) :
    (RebuildPatriciaTrieBasedOnFiles emptyRoot rwTx cfg).err ≠ none ∧
    (∀ b, Event.ComputeCommitment b ∉
      (RebuildPatriciaTrieBasedOnFiles emptyRoot rwTx cfg).events) ∧
    (∀ bb, countBlockByTxnum cfg.blockReader tx.EndTxNumNoCommitment = Except.ok bb →
      ((bb.Offset != 0 && cfg.checkRoot) = true →
        ∃ h, cfg.blockReader.HeaderByNumber bb.Number = Except.ok (some h)) →
      tx.NewSharedDomains = none →
      (RebuildPatriciaTrieBasedOnFiles emptyRoot rwTx cfg).err =
        some (Err.blockNotFoundForTxnum (u64sub tx.EndTxNumNoCommitment 1))) := by
  rcases htx with h | ⟨h, hb⟩
  · have hr := rebuildOn_index_not_found emptyRoot tx cfg true hnf
    simpa [RebuildPatriciaTrieBasedOnFiles, h] using hr
  · have hr := rebuildOn_index_not_found emptyRoot tx cfg false hnf
    simp only [RebuildPatriciaTrieBasedOnFiles, h, hb]
    refine ⟨hr.1, ?_, hr.2.2⟩
    intro b
    simp [hr.2.1 b]

/-- Witness of C15 (amended): the index has no entry for the target 2 on either lookup; the
scan over empty blocks locates block 0 and the run ends with "block not found for
txnum 1". -/
theorem RebuildPatriciaTrieBasedOnFiles_index_not_found_witness :
    (RebuildPatriciaTrieBasedOnFiles (hashOf 9)
      (some (okTx 2 (fun _ => false) 0 0 0 []))
      (okCfg (okTx 2 (fun _ => false) 0 0 0 []) true (hashOf 1))).err =
      some (Err.blockNotFoundForTxnum (u64sub 2 1)) :=
  (RebuildPatriciaTrieBasedOnFiles_index_not_found (hashOf 9)
    (some (okTx 2 (fun _ => false) 0 0 0 [])) (okTx 2 (fun _ => false) 0 0 0 [])
    (okCfg (okTx 2 (fun _ => false) 0 0 0 []) true (hashOf 1)) (Or.inl rfl)
    (fun _ => ⟨0, rfl⟩)).2.2
    { Number := 0, FirstTx := 0, CurrentTx := 2, LastTx := 2 } (by decide)
    (fun _ => ⟨{ Root := hashOf 1, HashValue := hashOf 7 }, rfl⟩) rfl

/-! ### Runs without root verification -/

theorem countBlockByTxnumLoop_reRoot (g : Nat → Hash) (r : FullBlockReader) (txnum : Nat)
    (fuel : Nat) : ∀ i c,
      countBlockByTxnumLoop (reRoot g r) txnum fuel i c =
        countBlockByTxnumLoop r txnum fuel i c := by
  induction fuel with
  | zero => intro i c; rfl
  | succ f ih =>
    intro i c
    simp only [countBlockByTxnumLoop, reRoot]
    cases hh : r.HeaderByNumber i with
    | error e => rfl
    | ok o =>
      cases o with
      | none => rfl
      | some h =>
        simp only
        cases hb : r.BodyWithTransactions h.HashValue i with
        | error e => rfl
        | ok ob =>
          cases ob with
          | none => rfl
          | some body =>
            simp only
            split
            · rfl
            · exact ih _ _

theorem countBlockByTxnumLoop_ne_wrongTrieRoot (r : FullBlockReader) (txnum : Nat)
    (fuel : Nat) : ∀ i c,
      countBlockByTxnumLoop r txnum fuel i c ≠ Except.error Err.wrongTrieRoot := by
  induction fuel with
  | zero => intro i c; simp [countBlockByTxnumLoop]
  | succ f ih =>
    intro i c
    simp only [countBlockByTxnumLoop]
    cases hh : r.HeaderByNumber i with
    | error e => simp
    | ok o =>
      cases o with
      | none => simp
      | some h =>
        simp only
        cases hb : r.BodyWithTransactions h.HashValue i with
        | error e => simp
        | ok ob =>
          cases ob with
          | none => simp
          | some body =>
            simp only
            split
            · simp
            · exact ih _ _

theorem locateBlock_withHeaderRoots (g : Nat → Hash) (tx : RwTx) (cfg : TrieCfg)
    (toTxNum : Nat) :
    locateBlock tx (withHeaderRoots g cfg) toTxNum = locateBlock tx cfg toTxNum := by
  have hscan : countBlockByTxnum (withHeaderRoots g cfg).blockReader toTxNum =
      countBlockByTxnum cfg.blockReader toTxNum :=
    countBlockByTxnumLoop_reRoot g cfg.blockReader toTxNum MaxUint64 0 0
  simp only [locateBlock, hscan]

theorem locateBlock_events (tx : RwTx) (cfg : TrieCfg) (toTxNum : Nat) :
    (∀ n, Event.HeaderByNumber n ∉ (locateBlock tx cfg toTxNum).2) ∧
    Event.CompareRoot ∉ (locateBlock tx cfg toTxNum).2 := by
  unfold locateBlock
  repeat' (first | split | dsimp only)
  all_goals simp

theorem locateBlock_ne_wrongTrieRoot (tx : RwTx) (cfg : TrieCfg) (toTxNum : Nat) :
    (locateBlock tx cfg toTxNum).1 ≠ Except.error Err.wrongTrieRoot := by
  have hscan := countBlockByTxnumLoop_ne_wrongTrieRoot cfg.blockReader toTxNum MaxUint64 0 0
  unfold locateBlock
  split
  · simp
  · split
    · rename_i e hs
      intro h
      simp only [Except.error.injEq] at h
      subst h
      exact hscan hs
    · simp
  · repeat' (first | split | dsimp only)
    all_goals simp

theorem collectAndComputeCommitment_ne_wrongTrieRoot (tx : RwTx) (agg : Aggregator)
    (toTxNum : Nat) :
    (collectAndComputeCommitment tx agg toTxNum).err ≠ some Err.wrongTrieRoot := by
  unfold collectAndComputeCommitment
  repeat' (first | split | dsimp only)
  all_goals simp

theorem computeAndVerify_unchecked (emptyRoot : Hash) (tx : RwTx) (cfg : TrieCfg)
    (ext : Bool) (toTxNum : Nat) (foundHash : Bool) (expected : Hash)
    (hcheck : cfg.checkRoot = false) :
    (∀ n, Event.HeaderByNumber n ∉
      (computeAndVerify emptyRoot tx cfg ext toTxNum foundHash expected).events) ∧
    Event.CompareRoot ∉
      (computeAndVerify emptyRoot tx cfg ext toTxNum foundHash expected).events ∧
    (computeAndVerify emptyRoot tx cfg ext toTxNum foundHash expected).err ≠
      some Err.wrongTrieRoot := by
  have hc := collectAndComputeCommitment_events tx cfg.agg toTxNum
  have he := collectAndComputeCommitment_ne_wrongTrieRoot tx cfg.agg toTxNum
  unfold computeAndVerify
  simp only [hcheck, Bool.and_false, Bool.false_eq_true, if_false]
  split
  · rename_i e hce
    rw [hce] at he
    exact ⟨hc.1, hc.2, he⟩
  · repeat' (first | split | dsimp only)
    all_goals simp [hc.1, hc.2]

theorem rebuildOn_unchecked (emptyRoot : Hash) (tx : RwTx) (cfg : TrieCfg) (ext : Bool)
    (hcheck : cfg.checkRoot = false) :
    (∀ n, Event.HeaderByNumber n ∉ (rebuildOn emptyRoot tx cfg ext).events) ∧
    Event.CompareRoot ∉ (rebuildOn emptyRoot tx cfg ext).events ∧
    (rebuildOn emptyRoot tx cfg ext).err ≠ some Err.wrongTrieRoot ∧
    ∀ g, rebuildOn emptyRoot tx (withHeaderRoots g cfg) ext =
      rebuildOn emptyRoot tx cfg ext := by
  have hlev := locateBlock_events tx cfg tx.EndTxNumNoCommitment
  have hlne := locateBlock_ne_wrongTrieRoot tx cfg tx.EndTxNumNoCommitment
  have hfetch : ∀ bn fh, fetchExpectedRoot emptyRoot cfg bn fh = ⟨Hash.zero, none, []⟩ := by
    intro bn fh
    simp [fetchExpectedRoot, hcheck]
  have hfetch2 : ∀ g bn fh,
      fetchExpectedRoot emptyRoot (withHeaderRoots g cfg) bn fh = ⟨Hash.zero, none, []⟩ := by
    intro g bn fh
    have : (withHeaderRoots g cfg).checkRoot = false := hcheck
    simp [fetchExpectedRoot, this]
  have hcv : ∀ g fh x,
      computeAndVerify emptyRoot tx (withHeaderRoots g cfg) ext tx.EndTxNumNoCommitment fh x =
        computeAndVerify emptyRoot tx cfg ext tx.EndTxNumNoCommitment fh x :=
    fun _ _ _ => rfl
  cases hl : locateBlock tx cfg tx.EndTxNumNoCommitment with
  | mk res evs =>
    have hl2 : ∀ g, locateBlock tx (withHeaderRoots g cfg) tx.EndTxNumNoCommitment =
        (res, evs) := by
      intro g
      rw [locateBlock_withHeaderRoots]
      exact hl
    rw [hl] at hlev hlne
    cases res with
    | error e =>
      have hr : rebuildOn emptyRoot tx cfg ext = ⟨Hash.zero, some e, evs⟩ := by
        simp only [rebuildOn, hl]
      have hr2 : ∀ g, rebuildOn emptyRoot tx (withHeaderRoots g cfg) ext =
          ⟨Hash.zero, some e, evs⟩ := by
        intro g
        simp only [rebuildOn, hl2 g]
      rw [hr]
      refine ⟨hlev.1, hlev.2, ?_, hr2⟩
      intro h
      apply hlne
      simp only [Option.some.injEq] at h
      rw [h]
    | ok p =>
      obtain ⟨bn, fh⟩ := p
      have hv := computeAndVerify_unchecked emptyRoot tx cfg ext
        tx.EndTxNumNoCommitment fh Hash.zero hcheck
      have hr : rebuildOn emptyRoot tx cfg ext =
          ⟨(computeAndVerify emptyRoot tx cfg ext tx.EndTxNumNoCommitment fh Hash.zero).val,
            (computeAndVerify emptyRoot tx cfg ext tx.EndTxNumNoCommitment fh Hash.zero).err,
            evs ++ [] ++
              (computeAndVerify emptyRoot tx cfg ext tx.EndTxNumNoCommitment fh
                Hash.zero).events⟩ := by
        simp only [rebuildOn, hl, hfetch]
      have hr2 : ∀ g, rebuildOn emptyRoot tx (withHeaderRoots g cfg) ext =
          ⟨(computeAndVerify emptyRoot tx cfg ext tx.EndTxNumNoCommitment fh Hash.zero).val,
            (computeAndVerify emptyRoot tx cfg ext tx.EndTxNumNoCommitment fh Hash.zero).err,
            evs ++ [] ++
              (computeAndVerify emptyRoot tx cfg ext tx.EndTxNumNoCommitment fh
                Hash.zero).events⟩ := by
        intro g
        simp only [rebuildOn, hl2 g, hfetch2, hcv]
      rw [hr]
      refine ⟨?_, ?_, hv.2.2, hr2⟩
      · intro n
        simp only [List.append_nil, List.mem_append, not_or]
        exact ⟨hlev.1 n, hv.1 n⟩
      · simp only [List.append_nil, List.mem_append, not_or]
        exact ⟨hlev.2, hv.2.1⟩

/-- C12: in every run with `cfg.checkRoot = false`, wherever the target lands and
whatever root is computed, no header is fetched for the comparison, no root is
compared, the run does not fail with "wrong trie root", and the run (returned hash,
error and calls made) is the same whatever state roots the headers declare. -/
theorem RebuildPatriciaTrieBasedOnFiles_checkRoot_false (emptyRoot : Hash)
    (rwTx : Option RwTx) (cfg : TrieCfg) (hcheck : cfg.checkRoot = false) :
    (∀ n, Event.HeaderByNumber n ∉
      (RebuildPatriciaTrieBasedOnFiles emptyRoot rwTx cfg).events) ∧
    Event.CompareRoot ∉ (RebuildPatriciaTrieBasedOnFiles emptyRoot rwTx cfg).events ∧
    (RebuildPatriciaTrieBasedOnFiles emptyRoot rwTx cfg).err ≠ some Err.wrongTrieRoot ∧
    ∀ g, RebuildPatriciaTrieBasedOnFiles emptyRoot rwTx (withHeaderRoots g cfg) =
      RebuildPatriciaTrieBasedOnFiles emptyRoot rwTx cfg := by
  cases rwTx with
  | some tx =>
    exact rebuildOn_unchecked emptyRoot tx cfg true hcheck
  | none =>
    have hdb : ∀ g, (withHeaderRoots g cfg).db = cfg.db := fun _ => rfl
    cases hb : cfg.db.BeginRw with
    | error e =>
      simp [RebuildPatriciaTrieBasedOnFiles, hdb, hb]
    | ok tx =>
      obtain ⟨h1, h2, h3, h4⟩ := rebuildOn_unchecked emptyRoot tx cfg false hcheck
      simp only [RebuildPatriciaTrieBasedOnFiles, hdb, hb]
      refine ⟨?_, ?_, h3, ?_⟩
      · intro n; simp [h1 n]
      · simp [h2]
      · intro g; rw [h4 g]

/-- Witness of C12: the target 10 is a comparison point, the computed root differs
from the header's root, and with `checkRoot = false` the run neither fetches the
header nor fails with "wrong trie root". -/
theorem RebuildPatriciaTrieBasedOnFiles_checkRoot_false_witness :
    (okCfg (borderTx (hashOf 2).bytes) false (hashOf 1)).checkRoot = false ∧
    (RebuildPatriciaTrieBasedOnFiles (hashOf 9) (some (borderTx (hashOf 2).bytes))
      (okCfg (borderTx (hashOf 2).bytes) false (hashOf 1))).err ≠ some Err.wrongTrieRoot :=
  ⟨rfl, (RebuildPatriciaTrieBasedOnFiles_checkRoot_false (hashOf 9)
    (some (borderTx (hashOf 2).bytes))
    (okCfg (borderTx (hashOf 2).bytes) false (hashOf 1)) rfl).2.2.1⟩

/-! ### Termination of the block scan -/

theorem countBlockByTxnumLoop_unfold (n : Nat → Nat) (root : Hash) (txnum fuel k c : Nat) :
    countBlockByTxnumLoop (chainReader n root) txnum (fuel + 1) k c =
      if u64 (u64 (u64 (c + 1) + n k) + 1) ≥ txnum then
        Except.ok { Number := k, FirstTx := c, CurrentTx := txnum,
                    LastTx := u64 (u64 (u64 (c + 1) + n k) + 1) }
      else countBlockByTxnumLoop (chainReader n root) txnum fuel (k + 1)
        (u64 (u64 (u64 (c + 1) + n k) + 1)) := by
  simp only [countBlockByTxnumLoop, chainReader, List.length_replicate]

theorem countBlockByTxnumLoop_empty_blocks (root : Hash) (fuel : Nat) :
    ∀ i c, c % 2 = 0 → c < 2 ^ 64 →
      countBlockByTxnumLoop (chainReader (fun _ => 0) root) (2 ^ 64 - 1) fuel i c =
        Except.error (Err.blockWithTxnNotFound (2 ^ 64 - 1)) := by
  induction fuel with
  | zero => intro i c _ _; rfl
  | succ f ih =>
    intro i c heven hlt
    have hs := countBlockByTxnumLoop_unfold (fun _ => 0) root (2 ^ 64 - 1) f i c
    have hnext : u64 (u64 (u64 (c + 1) + 0) + 1) % 2 = 0 ∧
        u64 (u64 (u64 (c + 1) + 0) + 1) < 2 ^ 64 ∧
        ¬ (u64 (u64 (u64 (c + 1) + 0) + 1) ≥ 2 ^ 64 - 1) := by
      unfold u64
      omega
    rw [if_neg hnext.2.2] at hs
    exact hs.trans (ih (i + 1) _ hnext.1 hnext.2.1)

/-- Counterexample to C17 as stated: on the chain of empty blocks (every read
succeeds) the 64-bit counter takes the even values 2, 4, ... up to `2^64 - 2`, wraps
to 0 and never reaches the odd target `2^64 - 1`; the scan ends with the not-found
error. -/
theorem countBlockByTxnum_wrap_counterexample :
    countBlockByTxnum (chainReader (fun _ => 0) (hashOf 1)) (2 ^ 64 - 1) =
      Except.error (Err.blockWithTxnNotFound (2 ^ 64 - 1)) :=
  countBlockByTxnumLoop_empty_blocks (hashOf 1) MaxUint64 0 0 (by decide) (by decide)

/-- C17 (amended): on a chain given by its per-block transaction counts whose header
and body reads all succeed, if the running counter (two slots plus one per
transaction for every block) reaches the target `txnum` at some block while still
below `2^64`, then `countBlockByTxnum` returns a successful result, not the
not-found error; the returned block number `i` satisfies `2 * i < txnum` or `i = 0`,
and the returned borders satisfy `FirstTx ≤ CurrentTx ≤ LastTx`. -/
theorem countBlockByTxnum_terminates (n : Nat → Nat) (root : Hash) (txnum i : Nat)
    (hreach : txnum ≤ counterBefore 2 n (i + 1))
    (hfit : counterBefore 2 n (i + 1) < 2 ^ 64) :
    ∃ bb, countBlockByTxnum (chainReader n root) txnum = Except.ok bb ∧
      (2 * bb.Number < txnum ∨ bb.Number = 0) ∧
      bb.FirstTx ≤ bb.CurrentTx ∧ bb.CurrentTx ≤ bb.LastTx := by
  have hex : ∃ j, txnum ≤ counterBefore 2 n (j + 1) := ⟨i, hreach⟩
  have hle : Nat.find hex ≤ i := Nat.find_min' hex hreach
  have hspec : txnum ≤ counterBefore 2 n (Nat.find hex + 1) := Nat.find_spec hex
  have hleast : ∀ j < Nat.find hex, counterBefore 2 n (j + 1) < txnum := by
    intro j hj
    have := Nat.find_min hex hj
    omega
  have hmono := counterBefore_mono 2 n (Nat.find hex + 1) (i + 1) (by omega)
  have hfit0 : counterBefore 2 n (Nat.find hex + 1) < 2 ^ 64 := by omega
  have h2 := two_mul_le_counterBefore n (Nat.find hex + 1)
  have hfuel : Nat.find hex < MaxUint64 := by unfold MaxUint64; omega
  have hrun := countBlockByTxnumLoop_chain n root txnum (Nat.find hex) hspec hleast hfit0
    (Nat.find hex) 0 MaxUint64 (by omega) hfuel
  refine ⟨_, hrun, ?_, ?_, hspec⟩
  · rcases Nat.eq_zero_or_pos (Nat.find hex) with h0 | hpos
    · exact Or.inr h0
    · left
      have hprev := hleast (Nat.find hex - 1) (by omega)
      have hlow := two_mul_le_counterBefore n (Nat.find hex - 1 + 1)
      have heq : Nat.find hex - 1 + 1 = Nat.find hex := by omega
      rw [heq] at hprev hlow
      show 2 * Nat.find hex < txnum
      omega
  · show counterBefore 2 n (Nat.find hex) ≤ txnum
    rcases Nat.eq_zero_or_pos (Nat.find hex) with h0 | hpos
    · rw [h0]; simp [counterBefore]
    · have hprev := hleast (Nat.find hex - 1) (by omega)
      have heq : Nat.find hex - 1 + 1 = Nat.find hex := by omega
      rw [heq] at hprev
      omega

/-- Witness of C17 (amended): blocks of one transaction each and the target 5, which
the counter has passed after block 3. -/
theorem countBlockByTxnum_terminates_witness :
    ∃ bb, countBlockByTxnum (chainReader (fun _ => 1) (hashOf 1)) 5 = Except.ok bb ∧
      (2 * bb.Number < 5 ∨ bb.Number = 0) ∧
      bb.FirstTx ≤ bb.CurrentTx ∧ bb.CurrentTx ≤ bb.LastTx :=
  countBlockByTxnum_terminates (fun _ => 1) (hashOf 1) 5 3 (by decide) (by decide)

end stagedsync

/-! ### Heimdall unwind configuration -/

namespace bordb

theorem ApplyUserUnwindTypeOverrides_receiver (cfg : HeimdallUnwindCfg)
    (overrides : List String) : ApplyUserUnwindTypeOverrides cfg overrides = Except.ok cfg := by
  cases overrides with
  | nil => rfl
  | cons o os => simp [ApplyUserUnwindTypeOverrides]

/-- C14 (the code at the failing input): called on the zero configuration with the
override list `["events"]`, the method leaves every flag of the receiver false,
whereas keeping exactly the types not listed means `KeepSpans`,
`KeepSpanBlockProducerSelections`, `KeepCheckpoints` and `KeepMilestones` true; and
called with the unknown override `"bogus"` it returns without a panic. -/
theorem ApplyUserUnwindTypeOverrides_overrides_ignored :
    ApplyUserUnwindTypeOverrides HeimdallUnwindCfg.zero ["events"] =
      Except.ok HeimdallUnwindCfg.zero ∧
    (keepUnlisted ["events"]).KeepSpans = true ∧
    HeimdallUnwindCfg.zero.KeepSpans = false ∧
    HeimdallUnwindCfg.zero ≠ keepUnlisted ["events"] ∧
    ApplyUserUnwindTypeOverrides HeimdallUnwindCfg.zero ["bogus"] =
      Except.ok HeimdallUnwindCfg.zero := by
  decide

end bordb

end Erigon
